import Mathlib

/-!
Verification of the CloudSync synchronization engine: a shallow embedding of
the provider layer (`GistProvider`, `WebDAVProvider`, `getProvider`), the
orchestrator (`App.performUpload`, `App.performDownload`), and the advisory
trend-analysis helper (`analyzeBrowsingTrends`), together with an executable
model of the platform JSON codec (`JSON.stringify` with indent 2 and
`JSON.parse`) that the wire formats rely on.

Modelling conventions:
- JavaScript runtime values flowing through `JSON.parse`/`response.json()` are
  modelled by the `Json` type below.  JSON numbers are modelled as integers
  (IEEE-754 doubles do not embed; no claim depends on non-integer numbers).
- `undefined` is modelled as `Option.none` where a property access can miss.
- Thrown JavaScript errors are modelled by `JsErr` with a kind distinguishing
  plain `Error` from `TypeError` / `SyntaxError`.
- `fetch` is modelled by a function from the request to the response; each
  provider operation returns the list of requests it issued, so "zero network
  calls" and "single attempt" are statable.
- Timestamps (`new Date()...`) are drawn from an environment-supplied stream
  indexed by call order; locale formatting is external to the model.
-/

namespace CloudSync

/-! ## JSON values

Arrays and objects are separate mutual inductives (`JsonA`, `JsonO`) so that
every function below is compiled by structural recursion and reduces inside
the kernel. -/

mutual

inductive Json where
  | null : Json
  | bool : Bool → Json
  | num : Int → Json
  | str : String → Json
  | arr : JsonA → Json
  | obj : JsonO → Json

inductive JsonA where
  | anil : JsonA
  | acons : Json → JsonA → JsonA

inductive JsonO where
  | onil : JsonO
  | ocons : String → Json → JsonO → JsonO

end

deriving instance DecidableEq for Json
deriving instance DecidableEq for JsonA
deriving instance DecidableEq for JsonO

/-- JavaScript truthiness of a JSON value (`false`, `0`, `""` and `null` are
falsy; every array and object is truthy). -/
def Json.isTruthy : Json → Bool
  | .null => false
  | .bool b => b
  | .num n => !(n = 0)
  | .str s => !(s = "")
  | .arr _ => true
  | .obj _ => true

/-- Last-occurrence lookup of a key in an object (later duplicate keys win,
matching what `JSON.parse` produces for duplicate keys). -/
def JsonO.lookupLast : JsonO → String → Option Json
  | .onil, _ => none
  | .ocons k v t, key =>
    match JsonO.lookupLast t key with
    | some hit => some hit
    | none => if k = key then some v else none

/-- Number of elements of a JSON array. -/
def JsonA.len : JsonA → Nat
  | .anil => 0
  | .acons _ t => 1 + JsonA.len t

/-- First `n` elements of a JSON array (`Array.prototype.slice(0, n)`). -/
def JsonA.take : Nat → JsonA → JsonA
  | 0, _ => .anil
  | _, .anil => .anil
  | n + 1, .acons h t => .acons h (JsonA.take n t)

/-! ## Decimal digits (kernel-reducible; `natChsW` is the proof-side twin) -/

/-- The character of a decimal digit. -/
def digitChar (k : Nat) : Char := Char.ofNat (48 + k)

/-- Decimal digit characters of `n` prepended to `acc`, most significant
first; `fuel` only makes the recursion structural. -/
def natChsAux : Nat → Nat → List Char → List Char
  | 0, _, acc => acc
  | fuel + 1, n, acc =>
    if n < 10 then (digitChar n) :: acc
    else natChsAux fuel (n / 10) ((digitChar (n % 10)) :: acc)

/-- Decimal digit characters of a natural number. -/
def natChs (n : Nat) : List Char := natChsAux (n + 1) n []

/-- Well-founded formulation of `natChs`, used by the round-trip proofs. -/
def natChsW (n : Nat) : List Char :=
  if n < 10 then [digitChar n] else natChsW (n / 10) ++ [digitChar (n % 10)]
termination_by n
decreasing_by exact Nat.div_lt_self (by omega) (by omega)

/-- Decimal characters of an integer: optional minus sign, then digits. -/
def intChs (i : Int) : List Char :=
  if i < 0 then '-' :: natChs i.natAbs else natChs i.natAbs

/-! ## Character classes and escaping -/

def isWsChar (c : Char) : Bool := c = ' ' || c = '\n' || c = '\t' || c = '\r'

def isDigitChar (c : Char) : Bool := 48 ≤ c.toNat && c.toNat ≤ 57

/-- Drop leading JSON whitespace. -/
def wsDrop : List Char → List Char
  | [] => []
  | c :: cs => if isWsChar c then wsDrop cs else c :: cs

/-- Lower-case hexadecimal digit character for `n < 16`. -/
def hexDigitChar (n : Nat) : Char :=
  Char.ofNat (if n < 10 then 48 + n else 87 + n)

/-- Value of a hexadecimal digit character. -/
def hexNibble (c : Char) : Option Nat :=
  if 48 ≤ c.toNat && c.toNat ≤ 57 then some (c.toNat - 48)
  else if 97 ≤ c.toNat && c.toNat ≤ 102 then some (c.toNat - 87)
  else if 65 ≤ c.toNat && c.toNat ≤ 70 then some (c.toNat - 55)
  else none

/-- JSON escaping of one string character, as `JSON.stringify` emits it:
quote and backslash get a backslash escape, the common control characters get
their short escapes, the remaining control characters get `\u00xy`, and
everything else is emitted literally. -/
def escChar (c : Char) : List Char :=
  if c = '"' then ['\\', '"']
  else if c = '\\' then ['\\', '\\']
  else if c = '\n' then ['\\', 'n']
  else if c = '\t' then ['\\', 't']
  else if c = '\r' then ['\\', 'r']
  else if c = Char.ofNat 8 then ['\\', 'b']
  else if c = Char.ofNat 12 then ['\\', 'f']
  else if c.toNat < 32 then
    '\\' :: 'u' :: '0' :: '0' :: hexDigitChar (c.toNat / 16) :: [hexDigitChar (c.toNat % 16)]
  else [c]

def escAll : List Char → List Char
  | [] => []
  | c :: cs => escChar c ++ escAll cs

/-- A JSON string literal: quote, escaped characters, quote. -/
def strQuote (s : String) : List Char := '"' :: (escAll s.data ++ ['"'])

/-! ## The parser (model of `JSON.parse`; structural on a fuel counter) -/

/-- Resolve a single-character escape (everything but `\uXXXX`). -/
def esc1 (e : Char) : Option Char :=
  if e = '"' then some '"'
  else if e = '\\' then some '\\'
  else if e = '/' then some '/'
  else if e = 'n' then some '\n'
  else if e = 't' then some '\t'
  else if e = 'r' then some '\r'
  else if e = 'b' then some (Char.ofNat 8)
  else if e = 'f' then some (Char.ofNat 12)
  else none

/-- Parse the body of a string literal (after the opening quote), returning
the decoded characters and the remainder after the closing quote. -/
def readStrBody : List Char → Option (List Char × List Char)
  | [] => none
  | '"' :: r => some ([], r)
  | '\\' :: r =>
    match r with
    | [] => none
    | 'u' :: r2 =>
      match r2 with
      | h1 :: h2 :: h3 :: h4 :: r3 =>
        match hexNibble h1, hexNibble h2, hexNibble h3, hexNibble h4 with
        | some a, some b, some c, some d =>
          (readStrBody r3).map (fun p => (Char.ofNat (((a * 16 + b) * 16 + c) * 16 + d) :: p.1, p.2))
        | _, _, _, _ => none
      | _ => none
    | e :: r2 =>
      match esc1 e with
      | some c => (readStrBody r2).map (fun p => (c :: p.1, p.2))
      | none => none
  | c :: r => (readStrBody r).map (fun p => (c :: p.1, p.2))

/-- Maximal run of decimal digits at the head of the input. -/
def readDigits (input : List Char) : List Char × List Char :=
  match input with
  | c :: more =>
    if isDigitChar c then
      let p := readDigits more
      (c :: p.1, p.2)
    else ([], c :: more)
  | [] => ([], [])

/-- Numeric value of a run of decimal digit characters. -/
def digitsNat (ds : List Char) : Nat :=
  ds.foldl (fun acc c => 10 * acc + (c.toNat - 48)) 0

/-- Does the input start with this character? -/
def headIs (cs : List Char) (c : Char) : Bool :=
  match cs with
  | x :: _ => x = c
  | [] => false

/-- Parse an integer JSON number (optional minus sign, then digits).  JSON
fractions and exponents are outside the integer number model. -/
def readNum (cs : List Char) : Option (Int × List Char) :=
  match cs with
  | '-' :: r =>
    let p := readDigits r
    if p.1.isEmpty then none else some (-(digitsNat p.1 : Int), p.2)
  | _ =>
    let p := readDigits cs
    if p.1.isEmpty then none else some ((digitsNat p.1 : Int), p.2)

mutual

/-- Parse one JSON value; whitespace-tolerant before every token. -/
def jparse (fuel : Nat) (cs : List Char) : Option (Json × List Char) :=
  match fuel with
  | fuel + 1 =>
    match wsDrop cs with
    | 'n' :: ('u' :: 'l' :: 'l' :: more) => some (.null, more)
    | 't' :: 'r' :: 'u' :: 'e' :: more => some (.bool true, more)
    | 'f' :: ('a' :: 'l' :: 's' :: 'e' :: more) => some (.bool false, more)
    | '"' :: r => (readStrBody r).map (fun p => (.str (String.mk p.1), p.2))
    | '[' :: r =>
      let r1 := wsDrop r
      cond (headIs r1 ']') (some (.arr .anil, r1.tail))
        ((jparseItems fuel r1).map (fun p => (.arr p.1, p.2)))
    | '{' :: r =>
      let r1 := wsDrop r
      cond (headIs r1 '}') (some (.obj .onil, r1.tail))
        ((jparseFields fuel r1).map (fun p => (.obj p.1, p.2)))
    | c :: r =>
      if c = '-' || isDigitChar c then (readNum (c :: r)).map (fun p => (.num p.1, p.2))
      else none
    | [] => none
  | 0 => none

/-- Parse one-or-more comma-separated array elements up to the closing `]`. -/
def jparseItems (fuel : Nat) (cs : List Char) : Option (JsonA × List Char) :=
  match fuel with
  | fuel + 1 =>
    match jparse fuel cs with
    | none => none
    | some (v, r) =>
      match wsDrop r with
      | ',' :: r2 => (jparseItems fuel r2).map (fun p => (.acons v p.1, p.2))
      | ']' :: r2 => some (.acons v .anil, r2)
      | _ => none
  | 0 => none

/-- Parse one-or-more comma-separated object members up to the closing `}`. -/
def jparseFields (fuel : Nat) (cs : List Char) : Option (JsonO × List Char) :=
  match fuel with
  | fuel + 1 =>
    match wsDrop cs with
    | '"' :: r =>
      match readStrBody r with
      | none => none
      | some (k, r1) =>
        match wsDrop r1 with
        | ':' :: r2 =>
          match jparse fuel r2 with
          | none => none
          | some (v, r3) =>
            match wsDrop r3 with
            | ',' :: r4 => (jparseFields fuel r4).map (fun p => (.ocons (String.mk k) v p.1, p.2))
            | '}' :: r4 => some (.ocons (String.mk k) v .onil, r4)
            | _ => Option.none
        | _ => none
    | _ => none
  | 0 => none

end

/-- Model of `JSON.parse`: parse the whole text, requiring only trailing
whitespace after the value; `none` models a thrown `SyntaxError`. -/
def Json.parse (s : String) : Option Json :=
  match jparse (s.data.length + 1) s.data with
  | some (j, r) => if (wsDrop r).isEmpty then some j else none
  | none => none

/-! ## The printers (models of `JSON.stringify`) -/

/-- The indentation emitted at nesting depth `d` for indent width 2. -/
def indentChs (d : Nat) : List Char := List.replicate (2 * d) ' '

mutual

/-- Pretty rendering at depth `d`, as `JSON.stringify(v, null, 2)` lays a
value out: empty arrays/objects inline, otherwise one element per line. -/
def pretty (d : Nat) : Json → List Char
  | .num n => intChs n
  | .null => ['n', 'u', 'l', 'l']
  | .bool b => cond b ['t', 'r', 'u', 'e'] ['f', 'a', 'l', 's', 'e']
  | .str s => strQuote s
  | .arr .anil => ['[', ']']
  | .arr (.acons h t) =>
    '[' :: '\n' :: (indentChs (d + 1) ++ prettyItems d (.acons h t) ++ '\n' :: (indentChs d ++ [']']))
  | .obj .onil => ['{', '}']
  | .obj (.ocons k v t) =>
    '{' :: '\n' :: (indentChs (d + 1) ++ prettyFields d (.ocons k v t) ++ '\n' :: (indentChs d ++ ['}']))

/-- The comma-and-newline separated elements of a nonempty array. -/
def prettyItems (d : Nat) : JsonA → List Char
  | .anil => []
  | .acons h .anil => pretty (d + 1) h
  | .acons h (.acons h2 t) =>
    pretty (d + 1) h ++ ',' :: '\n' :: (indentChs (d + 1) ++ prettyItems d (.acons h2 t))

/-- The members of a nonempty object; a key is followed by a colon and one
space, as indent mode emits it. -/
def prettyFields (d : Nat) : JsonO → List Char
  | .onil => []
  | .ocons k v .onil => strQuote k ++ ':' :: ' ' :: pretty (d + 1) v
  | .ocons k v (.ocons k2 v2 t) =>
    strQuote k ++ ':' :: ' ' :: pretty (d + 1) v
      ++ ',' :: '\n' :: (indentChs (d + 1) ++ prettyFields d (.ocons k2 v2 t))

end

/-- Model of `JSON.stringify(v, null, 2)`. -/
def stringify2 (j : Json) : String := String.mk (pretty 0 j)

mutual

/-- Compact rendering, as plain `JSON.stringify(v)` emits it. -/
def flat : Json → List Char
  | .num n => intChs n
  | .null => ['n', 'u', 'l', 'l']
  | .bool b => cond b ['t', 'r', 'u', 'e'] ['f', 'a', 'l', 's', 'e']
  | .str s => strQuote s
  | .arr .anil => ['[', ']']
  | .arr (.acons h t) => '[' :: (flatItems (.acons h t) ++ [']'])
  | .obj .onil => ['{', '}']
  | .obj (.ocons k v t) => '{' :: (flatFields (.ocons k v t) ++ ['}'])

def flatItems : JsonA → List Char
  | .anil => []
  | .acons h .anil => flat h
  | .acons h (.acons h2 t) => flat h ++ ',' :: flatItems (.acons h2 t)

def flatFields : JsonO → List Char
  | .onil => []
  | .ocons k v .onil => strQuote k ++ ':' :: flat v
  | .ocons k v (.ocons k2 v2 t) => strQuote k ++ ':' :: flat v ++ ',' :: flatFields (.ocons k2 v2 t)

end

/-- Model of compact `JSON.stringify(v)`. -/
def stringify0 (j : Json) : String := String.mk (flat j)

/-! ## Sizes (fuel bounds for the round-trip argument) -/

mutual

/-- Parser fuel a value needs beyond one unit per nesting level. -/
def jsize : Json → Nat
  | .arr a => 1 + asize a
  | .obj o => 1 + osize o
  | _ => 0

def asize : JsonA → Nat
  | .anil => 0
  | .acons h t => 1 + jsize h + asize t

def osize : JsonO → Nat
  | .onil => 0
  | .ocons _ v t => 1 + jsize v + osize t

end

/-- The remainder after a rendered number may not begin with a digit (every
place the round-trip argument appends one, it begins with a separator, a
closing bracket, whitespace, or is empty). -/
def digBreak (cs : List Char) : Bool :=
  match cs with
  | c :: _ => !isDigitChar c
  | [] => true

/-! ## JavaScript semantics helpers -/

mutual

/-- JavaScript string coercion `String(v)` of a JSON value (arrays join their
elements with commas, objects print as the object tag). -/
def jsToStr : Json → String
  | .null => "null"
  | .bool true => "true"
  | .bool false => "false"
  | .num n => String.mk (intChs n)
  | .str s => s
  | .arr a => jsToStrItems a
  | .obj _ => "[object Object]"

/-- `Array.prototype.toString`: elements joined by commas, a `null` element
contributing the empty string. -/
def jsToStrItems : JsonA → String
  | .anil => ""
  | .acons h t =>
    let hs := match h with
      | .null => ""
      | _ => jsToStr h
    match t with
    | .anil => hs
    | _ => hs ++ "," ++ jsToStrItems t

end

/-- JavaScript error kinds the embedded code can raise. -/
inductive ErrKind where
  | jsError : ErrKind
  | jsTypeError : ErrKind
  | jsSyntaxError : ErrKind
deriving DecidableEq

/-- A thrown JavaScript error: its constructor kind and its message. -/
structure JsErr where
  kind : ErrKind
  message : String
deriving DecidableEq

/-- Property read `v[k]`: a `TypeError` on `null`, the member (or `undefined`,
modelled `none`) on an object, `undefined` on any other primitive. -/
def Json.getProp (j : Json) (k : String) : Except JsErr (Option Json) :=
  match j with
  | .null => .error ⟨.jsTypeError, "Cannot read properties of null"⟩
  | .obj o => .ok (o.lookupLast k)
  | _ => .ok none

/-- `String(x)` on a possibly-`undefined` value (template-literal semantics:
an absent value prints as the text `undefined`). -/
def jsShow (v : Option Json) : String :=
  match v with
  | none => "undefined"
  | some j => jsToStr j

/-- Template interpolation of an optional config string: an absent field
prints as the literal text `undefined`. -/
def jsOptStr (o : Option String) : String := o.getD "undefined"

/-- JavaScript truthiness of an optional config string (absent and empty are
both falsy). -/
def optTruthy (o : Option String) : Bool :=
  match o with
  | none => false
  | some s => !(s = "")

/-- `JSON.parse(x)` on a runtime value: the argument is coerced to a string
first, then parsed (`none` models the thrown `SyntaxError`). -/
def jsonParseJs (v : Json) : Option Json := Json.parse (jsToStr v)

/-! ## Base64 (`btoa`) -/

/-- Character of a 6-bit group in the standard base64 alphabet. -/
def b64Char (n : Nat) : Char :=
  if n < 26 then Char.ofNat (65 + n)
  else if n < 52 then Char.ofNat (97 + (n - 26))
  else if n < 62 then Char.ofNat (48 + (n - 52))
  else if n = 62 then '+' else '/'

/-- Base64 of a byte list, three bytes to four characters, `=`-padded. -/
def b64Group : List Nat → List Char
  | [] => []
  | [a] => [b64Char (a / 4), b64Char (a % 4 * 16), '=', '=']
  | [a, b] => [b64Char (a / 4), b64Char (a % 4 * 16 + b / 16), b64Char (b % 16 * 4), '=']
  | a :: b :: c :: t =>
    b64Char (a / 4) :: b64Char (a % 4 * 16 + b / 16) :: b64Char (b % 16 * 4 + c / 64)
      :: b64Char (c % 64) :: b64Group t

/-- Base64 of a latin-1 string's bytes. -/
def b64OfAscii (s : String) : String := String.mk (b64Group (s.data.map Char.toNat))

/-- Model of `window.btoa`: base64 of the string's code points, throwing an
`InvalidCharacterError` when one exceeds a byte. -/
def btoa (s : String) : Except JsErr String :=
  if s.data.all (fun c => c.toNat < 256) then .ok (b64OfAscii s)
  else .error ⟨.jsError, "InvalidCharacterError"⟩

/-! ## Data model (`types.ts`) -/

/-- The `StorageProvider` enum. -/
inductive StorageProvider where
  | GIST : StorageProvider
  | WEBDAV : StorageProvider
deriving DecidableEq

/-- The `SyncConfig` interface: optional fields are `Option` (absent =
`undefined`). -/
structure SyncConfig where
  provider : StorageProvider
  gistToken : Option String := none
  gistId : Option String := none
  webdavUrl : Option String := none
  webdavUser : Option String := none
  webdavPass : Option String := none
  syncBookmarks : Bool
  syncExtensions : Bool
  syncHistory : Bool
  autoSyncInterval : Nat
deriving DecidableEq

/-- The `SyncData` snapshot: the three collections are JSON arrays of
provider-shaped records. -/
structure SyncData where
  lastUpdated : String
  version : String
  bookmarks : JsonA
  extensions : JsonA
  history : JsonA
deriving DecidableEq

/-- The JSON object `JSON.stringify` sees for a snapshot, fields in the
declaration order of the object literal in `performUpload`. -/
def syncDataToJson (d : SyncData) : Json :=
  .obj (.ocons "lastUpdated" (.str d.lastUpdated)
    (.ocons "version" (.str d.version)
      (.ocons "bookmarks" (.arr d.bookmarks)
        (.ocons "extensions" (.arr d.extensions)
          (.ocons "history" (.arr d.history) .onil)))))

/-! ## Transport model -/

/-- One HTTP request as `fetch` receives it. -/
structure Request where
  method : String
  url : String
  headers : List (String × String)
  body : Option String
deriving DecidableEq

/-- One HTTP response: `ok`, `statusText`, and the raw body text (which
`response.json()` parses). -/
structure Response where
  ok : Bool
  statusText : String
  body : String
deriving DecidableEq

/-- Value of a request header. -/
def Request.header (r : Request) (k : String) : Option String :=
  (r.headers.find? (fun p => p.1 = k)).map (fun p => p.2)

/-- Result of one provider call: the requests actually issued and the
operation's outcome (`ok none` models resolving with `undefined`). -/
structure ProvOut where
  requests : List Request
  result : Except JsErr (Option Json)

/-- Result of one provider download: requests issued and the returned
snapshot value (which is whatever `JSON.parse` produced, unvalidated). -/
structure DownOut where
  requests : List Request
  result : Except JsErr Json

/-! ## GistProvider (`cloudStorage.ts`) -/

/-- The pretty-printed snapshot text placed as the content of the fixed-name
`sync_data.json` entry: `JSON.stringify(data, null, 2)`. -/
def gistUploadContent (d : SyncData) : String := stringify2 (syncDataToJson d)

/-- The gist request payload
`{description, public: false, files: {"sync_data.json": {content}}}`. -/
def gistUploadPayload (d : SyncData) : Json :=
  .obj (.ocons "description" (.str "CloudSync Pro - Browser Data")
    (.ocons "public" (.bool false)
      (.ocons "files"
        (.obj (.ocons "sync_data.json"
          (.obj (.ocons "content" (.str (gistUploadContent d)) .onil)) .onil)) .onil)))

/-- The single request `GistProvider.upload` issues: `PATCH` to the
identifier-addressed endpoint when a truthy `gistId` is known, else `POST`
to the collection endpoint. -/
def gistUploadRequest (cfg : SyncConfig) (d : SyncData) : Request where
  method := if optTruthy cfg.gistId then "PATCH" else "POST"
  url :=
    if optTruthy cfg.gistId then "https://api.github.com/gists/" ++ cfg.gistId.getD ""
    else "https://api.github.com/gists"
  headers :=
    [("Authorization", "token " ++ cfg.gistToken.getD ""),
     ("Accept", "application/vnd.github.v3+json"),
     ("Content-Type", "application/json")]
  body := some (stringify0 (gistUploadPayload d))

/-- The non-ok branch of `GistProvider.upload`: `await response.json()` then
`throw new Error(err.message || 'Failed to upload to Gist')`.  A non-JSON
body makes `response.json()` itself throw; a `null` body makes the `.message`
read throw; a falsy or absent `message` falls back to the generic text. -/
def gistUploadFailure (body : String) : JsErr :=
  match Json.parse body with
  | none => ⟨.jsSyntaxError, "Unexpected token in JSON"⟩
  | some e =>
    match e.getProp "message" with
    | .error te => te
    | .ok m =>
      match m with
      | some mv =>
        if mv.isTruthy then ⟨.jsError, jsToStr mv⟩
        else ⟨.jsError, "Failed to upload to Gist"⟩
      | none => ⟨.jsError, "Failed to upload to Gist"⟩

/-- `GistProvider.upload`: validation, one `fetch`, then either the failure
path above or `result.id` of the parsed response body. -/
def gistUpload (cfg : SyncConfig) (d : SyncData) (net : Request → Response) : ProvOut :=
  if !optTruthy cfg.gistToken then ⟨[], .error ⟨.jsError, "Gist Token is required"⟩⟩
  else
    let req := gistUploadRequest cfg d
    let resp := net req
    if !resp.ok then ⟨[req], .error (gistUploadFailure resp.body)⟩
    else
      match Json.parse resp.body with
      | none => ⟨[req], .error ⟨.jsSyntaxError, "Unexpected token in JSON"⟩⟩
      | some r =>
        match r.getProp "id" with
        | .error te => ⟨[req], .error te⟩
        | .ok idv => ⟨[req], .ok idv⟩

/-- The single request `GistProvider.download` issues. -/
def gistDownloadRequest (cfg : SyncConfig) : Request where
  method := "GET"
  url := "https://api.github.com/gists/" ++ cfg.gistId.getD ""
  headers :=
    [("Authorization", "token " ++ cfg.gistToken.getD ""),
     ("Accept", "application/vnd.github.v3+json")]
  body := none

/-- Decoding of a gist download response body: `result.files['sync_data.json']`,
the `!file || !file.content` guard, then `JSON.parse(file.content)`. -/
def gistDecodeBody (body : String) : Except JsErr Json :=
  match Json.parse body with
  | none => .error ⟨.jsSyntaxError, "Unexpected token in JSON"⟩
  | some result =>
    match result.getProp "files" with
    | .error te => .error te
    | .ok filesOpt =>
      match filesOpt with
      | none => .error ⟨.jsTypeError, "Cannot read properties of undefined"⟩
      | some files =>
        match files.getProp "sync_data.json" with
        | .error te => .error te
        | .ok fileOpt =>
          match fileOpt with
          | none => .error ⟨.jsError, "Sync data file not found in Gist"⟩
          | some file =>
            if !file.isTruthy then .error ⟨.jsError, "Sync data file not found in Gist"⟩
            else
              match file.getProp "content" with
              | .error te => .error te
              | .ok contentOpt =>
                match contentOpt with
                | none => .error ⟨.jsError, "Sync data file not found in Gist"⟩
                | some content =>
                  if !content.isTruthy then .error ⟨.jsError, "Sync data file not found in Gist"⟩
                  else
                    match jsonParseJs content with
                    | none => .error ⟨.jsSyntaxError, "Unexpected token in JSON"⟩
                    | some j => .ok j

/-- `GistProvider.download`: validation of token and id, one `fetch`, a fixed
generic error on a non-ok response, else the body decoding above. -/
def gistDownload (cfg : SyncConfig) (net : Request → Response) : DownOut :=
  if !optTruthy cfg.gistToken || !optTruthy cfg.gistId then
    ⟨[], .error ⟨.jsError, "Gist Token and ID are required for download"⟩⟩
  else
    let req := gistDownloadRequest cfg
    let resp := net req
    if !resp.ok then ⟨[req], .error ⟨.jsError, "Failed to download from Gist"⟩⟩
    else ⟨[req], gistDecodeBody resp.body⟩

/-! ## WebDAVProvider (`cloudStorage.ts`) -/

/-- `WebDAVProvider.getUrl`: the configured base joined with the constant
file name, inserting a slash only when the base lacks a trailing one. -/
def webdavFileUrl (cfg : SyncConfig) : String :=
  let base := cfg.webdavUrl.getD ""
  if base.data.getLast? = some '/' then base ++ "cloudsync_pro_backup.json"
  else base ++ "/cloudsync_pro_backup.json"

/-- `WebDAVProvider.getHeaders`: basic auth from the base64 of
`user:pass`, each absent credential interpolating as the text `undefined`. -/
def webdavAuth (cfg : SyncConfig) : Except JsErr String :=
  (btoa (jsOptStr cfg.webdavUser ++ ":" ++ jsOptStr cfg.webdavPass)).map
    (fun a => "Basic " ++ a)

/-- The single request `WebDAVProvider.upload` issues (body is compact
`JSON.stringify(data)`), given the computed auth header. -/
def webdavUploadRequest (cfg : SyncConfig) (d : SyncData) (auth : String) : Request where
  method := "PUT"
  url := webdavFileUrl cfg
  headers := [("Authorization", auth), ("Content-Type", "application/json")]
  body := some (stringify0 (syncDataToJson d))

/-- `WebDAVProvider.upload`: URL validation, one `PUT`, a status-text error
message on a non-ok response, no return value on success. -/
def webdavUpload (cfg : SyncConfig) (d : SyncData) (net : Request → Response) : ProvOut :=
  if !optTruthy cfg.webdavUrl then ⟨[], .error ⟨.jsError, "WebDAV URL is required"⟩⟩
  else
    match webdavAuth cfg with
    | .error e => ⟨[], .error e⟩
    | .ok auth =>
      let req := webdavUploadRequest cfg d auth
      let resp := net req
      if !resp.ok then ⟨[req], .error ⟨.jsError, "WebDAV Upload Failed: " ++ resp.statusText⟩⟩
      else ⟨[req], .ok none⟩

/-- The single request `WebDAVProvider.download` issues. -/
def webdavDownloadRequest (cfg : SyncConfig) (auth : String) : Request where
  method := "GET"
  url := webdavFileUrl cfg
  headers := [("Authorization", auth)]
  body := none

/-- `WebDAVProvider.download`: URL validation, one `GET`, a status-text error
on non-ok, else `response.json()` of the body with no shape validation. -/
def webdavDownload (cfg : SyncConfig) (net : Request → Response) : DownOut :=
  if !optTruthy cfg.webdavUrl then ⟨[], .error ⟨.jsError, "WebDAV URL is required"⟩⟩
  else
    match webdavAuth cfg with
    | .error e => ⟨[], .error e⟩
    | .ok auth =>
      let req := webdavDownloadRequest cfg auth
      let resp := net req
      if !resp.ok then
        ⟨[req], .error ⟨.jsError, "WebDAV Download Failed: " ++ resp.statusText⟩⟩
      else
        match Json.parse resp.body with
        | none => ⟨[req], .error ⟨.jsSyntaxError, "Unexpected token in JSON"⟩⟩
        | some j => ⟨[req], .ok j⟩

/-! ## Provider factory (`getProvider`)

The enum has exactly the two implemented cases, so the factory's
`default: throw` branch is unreachable and the dispatch is total. -/

/-- `getProvider(type).upload` as one dispatching function. -/
def providerUpload : StorageProvider → SyncConfig → SyncData → (Request → Response) → ProvOut
  | .GIST => gistUpload
  | .WEBDAV => webdavUpload

/-- `getProvider(type).download` as one dispatching function. -/
def providerDownload : StorageProvider → SyncConfig → (Request → Response) → DownOut
  | .GIST => gistDownload
  | .WEBDAV => webdavDownload

/-! ## Advisory trend analysis (`gemini.ts`) -/

/-- One line of the history snippet: property reads of `title` and `url`
(throwing on a `null` record) interpolated into the bullet text.  The
assembled prompt string itself never influences observable behaviour. -/
def histLine (h : Json) : Except JsErr String :=
  match h.getProp "title" with
  | .error e => .error e
  | .ok t =>
    match h.getProp "url" with
    | .error e => .error e
    | .ok u => .ok ("- " ++ jsShow t ++ " (" ++ jsShow u ++ ")")

/-- The snippet built from the first fifty history records, outside the
`try` block (so its `TypeError` escapes as a rejection). -/
def histSnippet : JsonA → Except JsErr String
  | .anil => .ok ""
  | .acons h t =>
    match histLine h with
    | .error e => .error e
    | .ok line =>
      match histSnippet t with
      | .error e => .error e
      | .ok rest => .ok (line ++ "\n" ++ rest)

/-- `analyzeBrowsingTrends`: snippet construction may throw (outside the
`try`); inside it, a model failure or an unparseable response text is caught
and turned into a resolved `null`, else the parsed JSON is returned.
`aiResp` stands for the external model call's outcome. -/
def analyzeBrowsingTrends (history : JsonA) (aiResp : Except JsErr String) :
    Except JsErr Json :=
  match histSnippet (JsonA.take 50 history) with
  | .error e => .error e
  | .ok _ =>
    match aiResp with
    | .error _ => .ok .null
    | .ok text =>
      match Json.parse text with
      | none => .ok .null
      | some j => .ok j

/-! ## Sync orchestrator (`App.tsx`) -/

/-- A log entry `{timestamp, type, message}`. -/
inductive LogType where
  | info : LogType
  | error : LogType
  | success : LogType
deriving DecidableEq

structure SyncLog where
  timestamp : String
  type : LogType
  message : String
deriving DecidableEq

/-- The orchestrator-owned slice of `AppState` (`insights` lives in its own
state cell and is threaded separately). -/
structure AppState where
  config : SyncConfig
  logs : List SyncLog
  isSyncing : Bool
  lastSyncTime : Option String
deriving DecidableEq

/-- `addLog`: prepend a log entry and keep the newest fifty. -/
def addLog (s : AppState) (ts : String) (msg : String) (ty : LogType) : AppState :=
  { s with logs := (⟨ts, ty, msg⟩ :: s.logs).take 50 }

/-- Environment of one `performUpload` run: accessor results, the timestamp
stream (indexed by `new Date()` call order), the network, and the external
model call's outcome. -/
structure UploadEnv where
  bookmarks : JsonA
  extensions : JsonA
  history : JsonA
  clock : Nat → String
  net : Request → Response
  aiResp : Except JsErr String

/-- Observable result of one `performUpload` run: the final state, the
eventual insights cell, every state the run stepped through (one entry per
`setState`), the requests issued, the configs persisted to the store, the
snapshot built, and whether the trend-analysis call was started. -/
structure UploadOut where
  state : AppState
  insights : Option Json
  trace : List AppState
  requests : List Request
  savedConfigs : List SyncConfig
  uploadedData : Option SyncData
  analysisCalled : Bool

/-- Data gathering of `performUpload` steps 50-60: a collection whose flag is
false contributes an empty sequence; `lastUpdated` is the second `new Date()`
of the run and `version` the fixed string. -/
def builtSnapshot (cfg : SyncConfig) (env : UploadEnv) : SyncData where
  lastUpdated := env.clock 1
  version := "1.0.0"
  bookmarks := if cfg.syncBookmarks then env.bookmarks else .anil
  extensions := if cfg.syncExtensions then env.extensions else .anil
  history := if cfg.syncHistory then env.history else .anil

/-- The persisted-config step of `performUpload`: only a Gist provider result
that is a truthy string differing from the stored `gistId` updates the config
(the backend id is a string; non-string ids are outside the model). -/
def gistIdUpdate (cfg : SyncConfig) (res : Option Json) : Option SyncConfig :=
  match res with
  | some (.str s) =>
    if cfg.provider = .GIST ∧ s ≠ "" ∧ cfg.gistId ≠ some s then
      some { cfg with gistId := some s }
    else none
  | _ => none

/-- `App.performUpload`.  The busy guard returns before any effect.  A
started run sets the busy flag, logs, gathers, builds the snapshot, calls the
provider, optionally persists the new `gistId`, records the last-sync
timestamp, logs the outcome, fires the advisory analysis when history is
nonempty, and clears the busy flag in the `finally` step on both paths. -/
def performUpload (st : AppState) (ins0 : Option Json) (env : UploadEnv) : UploadOut :=
  if st.isSyncing then ⟨st, ins0, [], [], [], none, false⟩
  else
    let s1 := { st with isSyncing := true }
    let s2 := addLog s1 (env.clock 0) "Initiating manual upload..." .info
    let d := builtSnapshot st.config env
    let up := providerUpload st.config.provider st.config d env.net
    match up.result with
    | .error e =>
      let s3 := addLog s2 (env.clock 2) ("Upload failed: " ++ e.message) .error
      let s4 := { s3 with isSyncing := false }
      ⟨s4, ins0, [s1, s2, s3, s4], up.requests, [], some d, false⟩
    | .ok res =>
      let cfgStep := gistIdUpdate st.config res
      let s3 := match cfgStep with
        | some c => { s2 with config := c }
        | none => s2
      let s4 := { s3 with lastSyncTime := some (env.clock 2) }
      let s5 := addLog s4 (env.clock 3) "Upload successful!" .success
      let called := 0 < d.history.len
      let newIns :=
        if called then
          match analyzeBrowsingTrends d.history env.aiResp with
          | .error _ => ins0
          | .ok r => if r.isTruthy then some r else ins0
        else ins0
      let s6 := { s5 with isSyncing := false }
      ⟨s6, newIns,
        [s1, s2] ++ (match cfgStep with | some _ => [s3] | none => []) ++ [s4, s5, s6],
        up.requests,
        (match cfgStep with | some c => [c] | none => []),
        some d, called⟩

/-- Environment of one `performDownload` run: the timestamp stream, the
network, and the locale date formatting of the snapshot's `lastUpdated`. -/
structure DownloadEnv where
  clock : Nat → String
  net : Request → Response
  dateFmt : Option Json → String

/-- Observable result of one `performDownload` run. -/
structure DownloadOut where
  state : AppState
  trace : List AppState
  requests : List Request

/-- `App.performDownload`: busy guard, provider call, three logs on success
(reading `data.version` throws on a `null` snapshot and lands in the catch),
an error log on failure, busy flag cleared in the `finally` step. -/
def performDownload (st : AppState) (env : DownloadEnv) : DownloadOut :=
  if st.isSyncing then ⟨st, [], []⟩
  else
    let s1 := { st with isSyncing := true }
    let s2 := addLog s1 (env.clock 0) "Initiating manual download..." .info
    let dn := providerDownload st.config.provider st.config env.net
    let fail := fun (e : JsErr) =>
      let s3 := addLog s2 (env.clock 1) ("Download failed: " ++ e.message) .error
      let s4 := { s3 with isSyncing := false }
      (⟨s4, [s1, s2, s3, s4], dn.requests⟩ : DownloadOut)
    match dn.result with
    | .error e => fail e
    | .ok data =>
      match data.getProp "version" with
      | .error te => fail te
      | .ok ver =>
        let lu := (data.getProp "lastUpdated").toOption.getD none
        let s3 := addLog s2 (env.clock 1)
          ("Download successful! Version: " ++ jsShow ver
            ++ ", Last Cloud Update: " ++ env.dateFmt lu) .success
        let nb := (data.getProp "bookmarks").toOption.getD none
        let ne := (data.getProp "extensions").toOption.getD none
        let nh := (data.getProp "history").toOption.getD none
        let count := fun (v : Option Json) =>
          match v with
          | some (.arr a) => a.len
          | some (.str s) => s.length
          | _ => 0
        let s4 := addLog s3 (env.clock 2)
          ("Data fetched: " ++ Nat.repr (count nb) ++ " bookmarks, "
            ++ Nat.repr (count ne) ++ " extensions, "
            ++ Nat.repr (count nh) ++ " history items.") .info
        let s5 := addLog s4 (env.clock 3)
          "Ready to restore. (Auto-restore skipped for safety in this demo)." .info
        let s6 := { s5 with isSyncing := false }
        ⟨s6, [s1, s2, s3, s4, s5, s6], dn.requests⟩

/-! # Proofs

## Decimal digit lemmas -/

theorem digitChar_toNat (k : Nat) (h : k < 10) : (digitChar k).toNat = 48 + k := by
  interval_cases k <;> rfl

theorem isDigitChar_digitChar (k : Nat) (h : k < 10) : isDigitChar (digitChar k) = true := by
  interval_cases k <;> rfl

theorem natChsW_all_digits (n : Nat) : ∀ c ∈ natChsW n, isDigitChar c = true := by
  induction n using Nat.strongRecOn
  next n ih =>
    rw [natChsW]
    by_cases h : n < 10
    · simpa [h] using isDigitChar_digitChar n h
    · simp only [if_neg h]
      intro c hmem
      rcases List.mem_append.mp hmem with hmem | hmem
      · exact ih (n / 10) (Nat.div_lt_self (by omega : 0 < n) (by norm_num)) c hmem
      · rcases List.mem_singleton.mp hmem with rfl
        exact isDigitChar_digitChar _ (Nat.mod_lt _ (by omega))

theorem natChsW_ne_nil (n : Nat) : natChsW n ≠ [] := by
  rw [natChsW]
  by_cases h : n < 10 <;> simp [h]

theorem natChsW_head (n : Nat) :
    ∃ c t, natChsW n = c :: t ∧ isDigitChar c = true := by
  rcases hn : natChsW n with _ | ⟨c, t⟩
  · exact absurd hn (natChsW_ne_nil n)
  · exact ⟨c, t, rfl, natChsW_all_digits n c (hn ▸ List.mem_cons_self _ _)⟩

theorem natChsAux_eq (fuel : Nat) :
    ∀ n acc, n < fuel → natChsAux fuel n acc = natChsW n ++ acc := by
  induction fuel with
  | zero => omega
  | succ f ih =>
    intro n acc h
    rw [natChsAux, natChsW]
    by_cases h10 : n < 10
    · simp [h10]
    · rw [if_neg h10, if_neg h10, ih (n / 10) _ (by omega), List.append_assoc]
      rfl

theorem natChs_eq (n : Nat) : natChs n = natChsW n := by
  rw [natChs, natChsAux_eq (n + 1) n [] (by omega), List.append_nil]

theorem digitsNat_append_last (xs : List Char) (c : Char) :
    digitsNat (xs ++ [c]) = 10 * digitsNat xs + (c.toNat - 48) := by
  simp [digitsNat, List.foldl_append]

theorem digitsNat_natChsW (n : Nat) : digitsNat (natChsW n) = n := by
  induction n using Nat.strongRecOn
  next n ih =>
    rw [natChsW]
    by_cases h : n < 10
    · simp [h, digitsNat, digitChar_toNat n h]
    · rw [if_neg h, digitsNat_append_last, ih (n / 10) (Nat.div_lt_self (by omega : 0 < n) (by norm_num)),
        digitChar_toNat _ (Nat.mod_lt _ (by omega))]
      omega

theorem readDigits_nondigit {cs : List Char} (h : digBreak cs = true) :
    readDigits cs = ([], cs) := by
  cases cs with
  | nil => rfl
  | cons c t =>
    have hcd : isDigitChar c = false := by
      simpa [digBreak, Bool.not_eq_true'] using h
    simp [readDigits, hcd]

theorem readDigits_run (digs : List Char) (rest : List Char)
    (hds : ∀ c ∈ digs, isDigitChar c = true) (hrest : digBreak rest = true) :
    readDigits (digs ++ rest) = (digs, rest) := by
  induction digs with
  | cons c t ih =>
    have hrec := ih fun x hx => hds x (List.mem_cons_of_mem _ hx)
    simp [readDigits, hds c (List.mem_cons_self _ _), hrec]
  | nil => exact readDigits_nondigit hrest

theorem ne_of_digit {c x : Char} (h : isDigitChar c = true)
    (hx : isDigitChar x = false) : c ≠ x := by
  intro hEq
  rw [hEq, hx] at h
  cases h

theorem digit_ne_minus {c : Char} (h : isDigitChar c = true) : c ≠ '-' :=
  ne_of_digit h rfl

theorem readNum_not_minus {c : Char} (t : List Char) (h : c ≠ '-') :
    readNum (c :: t) =
      (let p := readDigits (c :: t);
        if p.1.isEmpty then none else some ((digitsNat p.1 : Int), p.2)) := by
  unfold readNum
  split
  · rename_i r heq
    injection heq with h1 _
    exact absurd h1 h
  · rfl

theorem readNum_intChs (i : Int) (rest : List Char) (hrest : digBreak rest = true) :
    readNum (intChs i ++ rest) = some (i, rest) := by
  by_cases hneg : i < 0
  · have harg : intChs i ++ rest = '-' :: (natChsW i.natAbs ++ rest) := by
      simp [intChs, hneg, natChs_eq]
    rw [harg]
    show (let p := readDigits (natChsW i.natAbs ++ rest);
      if p.1.isEmpty then none else some (-(digitsNat p.1 : Int), p.2)) = some (i, rest)
    rw [readDigits_run _ _ (natChsW_all_digits _) hrest]
    simp only [List.isEmpty_eq_true]
    rw [if_neg (natChsW_ne_nil _), digitsNat_natChsW]
    have hiv : -(i.natAbs : Int) = i := by omega
    rw [hiv]
  · obtain ⟨c, t, hct, hc⟩ := natChsW_head i.natAbs
    have harg : intChs i ++ rest = c :: (t ++ rest) := by
      simp [intChs, hneg, natChs_eq, hct]
    have hread : readDigits (c :: (t ++ rest)) = (c :: t, rest) := by
      have hmem : ∀ x ∈ c :: t, isDigitChar x = true := by
        intro x hx
        exact natChsW_all_digits i.natAbs x (by rw [hct]; exact hx)
      have := readDigits_run (c :: t) rest hmem hrest
      simpa using this
    rw [harg, readNum_not_minus _ (digit_ne_minus hc)]
    simp only [hread, List.isEmpty_eq_true]
    rw [if_neg (by simp)]
    have hdv : digitsNat (c :: t) = i.natAbs := by rw [← hct, digitsNat_natChsW]
    rw [hdv]
    have hiv : (i.natAbs : Int) = i := by omega
    rw [hiv]

/-! ## String-literal escape lemmas -/

theorem hexNibble_hexDigitChar (k : Nat) (h : k < 16) : hexNibble (hexDigitChar k) = some k := by
  interval_cases k <;> rfl

theorem readStrBody_escChar (c : Char) (rest : List Char) :
    readStrBody (escChar c ++ rest) = (readStrBody rest).map (fun p => (c :: p.1, p.2)) := by
  by_cases h1 : c = '"'
  · subst h1; simp [escChar, readStrBody, esc1]
  · by_cases h2 : c = '\\'
    · subst h2; simp [escChar, readStrBody, esc1]
    · by_cases h3 : c = '\n'
      · subst h3; simp [escChar, readStrBody, esc1]
      · by_cases h4 : c = '\t'
        · subst h4; simp [escChar, readStrBody, esc1]
        · by_cases h5 : c = '\r'
          · subst h5; simp [escChar, readStrBody, esc1]
          · by_cases h6 : c = Char.ofNat 8
            · subst h6; simp [escChar, readStrBody, esc1]
            · by_cases h7 : c = Char.ofNat 12
              · subst h7; simp [escChar, readStrBody, esc1]
              · by_cases h8 : c.toNat < 32
                · have hchars : escChar c = '\\' :: 'u' :: '0' :: '0'
                      :: hexDigitChar (c.toNat / 16) :: [hexDigitChar (c.toNat % 16)] := by
                    simp [escChar, h1, h2, h3, h4, h5, h6, h7, h8]
                  rw [hchars]
                  show readStrBody ('\\' :: 'u' :: '0' :: '0' ::
                    hexDigitChar (c.toNat / 16) :: hexDigitChar (c.toNat % 16) :: rest) = _
                  simp only [readStrBody, hexNibble_hexDigitChar _ (by omega : c.toNat / 16 < 16),
                    hexNibble_hexDigitChar _ (by omega : c.toNat % 16 < 16)]
                  have hv : hexNibble '0' = some 0 := rfl
                  simp only [hv]
                  have harith : c.toNat = ((0 * 16 + 0) * 16 + c.toNat / 16) * 16 + c.toNat % 16 := by
                    omega
                  rw [← harith, Char.ofNat_toNat]
                · have hchars : escChar c = [c] := by
                    simp [escChar, h1, h2, h3, h4, h5, h6, h7, h8]
                  rw [hchars]
                  show readStrBody (c :: rest) = _
                  unfold readStrBody
                  split
                  · rename_i heq; cases heq
                  · rename_i heq
                    injection heq with hh _
                    exact absurd hh h1
                  · rename_i heq
                    injection heq with hh _
                    exact absurd hh h2
                  · rename_i heq
                    injection heq with hh ht
                    subst hh
                    subst ht
                    conv_lhs => rw [readStrBody.eq_def]

theorem readStrBody_escAll (l : List Char) (rest : List Char) :
    readStrBody (escAll l ++ '"' :: rest) = some (l, rest) := by
  induction l with
  | cons c cs ih =>
    rw [escAll, List.append_assoc, readStrBody_escChar, ih]
    rfl
  | nil => rfl

/-! ## Whitespace lemmas -/

theorem wsDrop_cons_ws {c : Char} (h : isWsChar c = true) (s : List Char) :
    wsDrop (c :: s) = wsDrop s := by
  simp [wsDrop, h]

theorem wsDrop_cons_nonws {c : Char} (h : isWsChar c = false) (s : List Char) :
    wsDrop (c :: s) = c :: s := by
  simp [wsDrop, h]

theorem wsDrop_all_ws (ws : List Char) (h : ∀ c ∈ ws, isWsChar c = true) (s : List Char) :
    wsDrop (ws ++ s) = wsDrop s := by
  induction ws with
  | nil => rfl
  | cons c t ih =>
    rw [List.cons_append, wsDrop_cons_ws (h c (List.mem_cons_self _ _))]
    exact ih fun y hy => h y (List.mem_cons_of_mem _ hy)

theorem wsDrop_indent (d : Nat) (s : List Char) : wsDrop (indentChs d ++ s) = wsDrop s := by
  apply wsDrop_all_ws
  intro c hc
  rw [indentChs] at hc
  rw [List.eq_of_mem_replicate hc]
  rfl

theorem wsDrop_nl (s : List Char) : wsDrop ('\n' :: s) = wsDrop s :=
  wsDrop_cons_ws (by decide) s

/-! ## Parser congruence in leading whitespace -/

theorem jparse_congr (fuel : Nat) {cs cs' : List Char} (h : wsDrop cs = wsDrop cs') :
    jparse fuel cs = jparse fuel cs' := by
  cases fuel with
  | succ f =>
    show (match wsDrop cs with
      | 'n' :: ('u' :: 'l' :: 'l' :: more) => some (.null, more)
      | 't' :: 'r' :: 'u' :: 'e' :: more => some (.bool true, more)
      | 'f' :: ('a' :: 'l' :: 's' :: 'e' :: more) => some (.bool false, more)
      | '"' :: r => (readStrBody r).map (fun p => (.str (String.mk p.1), p.2))
      | '[' :: r =>
        let r1 := wsDrop r
        cond (headIs r1 ']') (some (.arr .anil, r1.tail))
          ((jparseItems f r1).map (fun p => (.arr p.1, p.2)))
      | '{' :: r =>
        let r1 := wsDrop r
        cond (headIs r1 '}') (some (.obj .onil, r1.tail))
          ((jparseFields f r1).map (fun p => (.obj p.1, p.2)))
      | c :: r =>
        if c = '-' || isDigitChar c then (readNum (c :: r)).map (fun p => (.num p.1, p.2))
        else none
      | [] => none) = jparse (f + 1) cs'
    rw [h]
    rfl
  | zero => rfl

theorem jparseItems_congr (fuel : Nat) {cs cs' : List Char} (h : wsDrop cs = wsDrop cs') :
    jparseItems fuel cs = jparseItems fuel cs' := by
  cases fuel with
  | succ f =>
    show (match jparse f cs with
      | none => none
      | some (v, r) =>
        match wsDrop r with
        | ',' :: r2 => (jparseItems f r2).map (fun p => (.acons v p.1, p.2))
        | ']' :: r2 => some (.acons v .anil, r2)
        | _ => none) = jparseItems (f + 1) cs'
    rw [jparse_congr f h]
    rfl
  | zero => rfl

theorem jparseFields_congr (fuel : Nat) {cs cs' : List Char} (h : wsDrop cs = wsDrop cs') :
    jparseFields fuel cs = jparseFields fuel cs' := by
  cases fuel with
  | succ f =>
    show (match wsDrop cs with
      | '"' :: r =>
        match readStrBody r with
        | none => none
        | some (k, r1) =>
          match wsDrop r1 with
          | ':' :: r2 =>
            match jparse f r2 with
            | none => none
            | some (v, r3) =>
              match wsDrop r3 with
              | ',' :: r4 => (jparseFields f r4).map (fun p => (.ocons (String.mk k) v p.1, p.2))
              | '}' :: r4 => some (.ocons (String.mk k) v .onil, r4)
              | _ => Option.none
          | _ => none
      | _ => none) = jparseFields (f + 1) cs'
    rw [h]
    rfl
  | zero => rfl

/-! ## Heads of rendered output -/

theorem digit_not_special {c : Char} (h : isDigitChar c = true) :
    c ≠ ']' ∧ isWsChar c = false ∧ c ≠ '}' := by
  refine ⟨ne_of_digit h rfl, ?_, ne_of_digit h rfl⟩
  by_contra hws
  simp only [Bool.not_eq_false] at hws
  simp only [isWsChar, Bool.or_eq_true, decide_eq_true_eq] at hws
  rcases hws with ((rfl | rfl) | rfl) | rfl <;> exact absurd h (by decide)

theorem prettyHead (d : Nat) (j : Json) :
    ∃ c t, pretty d j = c :: t ∧ c ≠ ']' ∧ isWsChar c = false ∧ c ≠ '}' := by
  cases j
  case num n =>
    by_cases hneg : n < 0
    · refine ⟨'-', natChsW n.natAbs, ?_, by decide, rfl, by decide⟩
      simp [pretty, intChs, hneg, natChs_eq]
    · obtain ⟨c, t, hct, hc⟩ := natChsW_head n.natAbs
      refine ⟨c, t, ?_, digit_not_special hc⟩
      simp [pretty, intChs, hneg, natChs_eq, hct]
  case bool b => cases b <;> exact ⟨_, _, rfl, by decide, rfl, by decide⟩
  case arr a => cases a <;> exact ⟨_, _, rfl, by decide, rfl, by decide⟩
  case obj o => cases o <;> exact ⟨_, _, rfl, by decide, rfl, by decide⟩
  case null => exact ⟨_, _, rfl, by decide, rfl, by decide⟩
  case str s => exact ⟨_, _, rfl, by decide, rfl, by decide⟩

theorem wsDrop_pretty (d : Nat) (j : Json) (x : List Char) :
    wsDrop (pretty d j ++ x) = pretty d j ++ x := by
  obtain ⟨c, t, hct, _, hws, _⟩ := prettyHead d j
  rw [hct, List.cons_append, wsDrop_cons_nonws hws]

/-! ## Fuel bounds -/

mutual

theorem jsize_le : ∀ (d : Nat) (j : Json), jsize j ≤ (pretty d j).length
  | _, .null => by simp [jsize]
  | _, .bool b => by cases b <;> simp [jsize]
  | _, .num n => by simp [jsize]
  | _, .str s => by simp [jsize]
  | _, .arr .anil => by simp [jsize, asize, pretty]
  | d, .arr (.acons h t) => by
    have hi := asize_le d (.acons h t)
    simp only [jsize, asize, pretty, List.length_cons, List.length_append] at *
    omega
  | _, .obj .onil => by simp [jsize, osize, pretty]
  | d, .obj (.ocons k v t) => by
    have hi := osize_le d (.ocons k v t)
    simp only [jsize, osize, pretty, List.length_cons, List.length_append] at *
    omega
termination_by _ j => sizeOf j

theorem asize_le : ∀ (d : Nat) (a : JsonA), asize a ≤ (prettyItems d a).length + 1
  | _, .anil => by simp [asize]
  | d, .acons h .anil => by
    have hj := jsize_le (d + 1) h
    simp only [asize, prettyItems] at *
    omega
  | d, .acons h (.acons h2 t) => by
    have hj := jsize_le (d + 1) h
    have ht := asize_le d (.acons h2 t)
    simp only [asize, prettyItems, List.length_append, List.length_cons] at *
    omega
termination_by _ a => sizeOf a

theorem osize_le : ∀ (d : Nat) (o : JsonO), osize o ≤ (prettyFields d o).length + 1
  | _, .onil => by simp [osize]
  | d, .ocons k v .onil => by
    have hj := jsize_le (d + 1) v
    simp only [osize, prettyFields, List.length_append, List.length_cons] at *
    omega
  | d, .ocons k v (.ocons k2 v2 t) => by
    have hj := jsize_le (d + 1) v
    have ht := osize_le d (.ocons k2 v2 t)
    simp only [osize, prettyFields, List.length_append, List.length_cons] at *
    omega
termination_by _ o => sizeOf o

end

/-! ## Round-trip: parsing a rendered value recovers it -/

theorem digit_not_starts {c : Char} (h : isDigitChar c = true) :
    c ≠ '"' ∧ c ≠ 'n' ∧ c ≠ 't' ∧ c ≠ '[' ∧ c ≠ 'f' ∧ c ≠ '{' :=
  ⟨ne_of_digit h rfl, ne_of_digit h rfl, ne_of_digit h rfl,
    ne_of_digit h rfl, ne_of_digit h rfl, ne_of_digit h rfl⟩

theorem prettyItemsHead (d : Nat) (h : Json) (t : JsonA) :
    ∃ c cs, prettyItems d (.acons h t) = c :: cs ∧ c ≠ ']' ∧ isWsChar c = false ∧ c ≠ '}' := by
  obtain ⟨c, cs, hct, hb1, hws, hb2⟩ := prettyHead (d + 1) h
  cases t with
  | anil => exact ⟨c, cs, by simp [prettyItems, hct], hb1, hws, hb2⟩
  | acons h2 t2 =>
    refine ⟨c, cs ++ (',' :: '\n' :: (indentChs (d + 1) ++ prettyItems d (.acons h2 t2))), ?_,
      hb1, hws, hb2⟩
    simp [prettyItems, hct]

theorem wsDrop_prettyItems (d : Nat) (h : Json) (t : JsonA) (x : List Char) :
    wsDrop (prettyItems d (.acons h t) ++ x) = prettyItems d (.acons h t) ++ x := by
  obtain ⟨c, cs, hct, _, hws, _⟩ := prettyItemsHead d h t
  rw [hct, List.cons_append, wsDrop_cons_nonws hws]

/-- The parser takes the number arm on a head character that opens no other
token kind. -/
theorem jparse_num_arm (f : Nat) (c : Char) (t : List Char)
    (hws : isWsChar c = false)
    (hns : c ≠ '"' ∧ c ≠ 'n' ∧ c ≠ 't' ∧ c ≠ '[' ∧ c ≠ 'f' ∧ c ≠ '{')
    (hg : (c = '-' || isDigitChar c) = true) :
    jparse (f + 1) (c :: t) = (readNum (c :: t)).map (fun p => (.num p.1, p.2)) := by
  obtain ⟨hq, hn, ht, hlb, hf, hcb⟩ := hns
  simp only [jparse]
  rw [wsDrop_cons_nonws hws]
  simp [hn, ht, hf, hq, hlb, hcb, hg]

/-- A nonempty member list renders with a leading quote. -/
theorem prettyFieldsHead (d : Nat) (k : String) (v : Json) (t : JsonO) :
    ∃ cs, prettyFields d (.ocons k v t) = '"' :: cs := by
  cases t with
  | onil =>
    exact ⟨escAll k.data ++ '"' :: (':' :: (' ' :: pretty (d + 1) v)),
      by simp [prettyFields, strQuote]⟩
  | ocons k2 v2 t2 =>
    exact ⟨escAll k.data ++ '"' :: (':' :: (' ' :: (pretty (d + 1) v ++ ',' :: ('\n'
      :: (indentChs (d + 1) ++ prettyFields d (.ocons k2 v2 t2)))))),
      by simp [prettyFields, strQuote]⟩

theorem wsDrop_prettyFields (d : Nat) (k : String) (v : Json) (t : JsonO) (x : List Char) :
    wsDrop (prettyFields d (.ocons k v t) ++ x) = prettyFields d (.ocons k v t) ++ x := by
  obtain ⟨cs, hcs⟩ := prettyFieldsHead d k v t
  rw [hcs, List.cons_append, wsDrop_cons_nonws (by decide)]

theorem headIs_cons_ne {c x : Char} (t : List Char) (h : c ≠ x) : headIs (c :: t) x = false := by
  simp [headIs, h]

/-- One parser step into the array arm (the newline is the one the pretty
printer emits after the opening bracket). -/
theorem jparse_arr_step (f : Nat) (X : List Char) :
    jparse (f + 1) ('[' :: ('\n' :: X))
      = cond (headIs (wsDrop X) ']') (some (.arr .anil, (wsDrop X).tail))
          ((jparseItems f (wsDrop X)).map (fun p => (.arr p.1, p.2))) := by
  simp only [jparse]
  rw [wsDrop_cons_nonws (by decide)]
  rfl

/-- One parser step into the object arm. -/
theorem jparse_obj_step (f : Nat) (X : List Char) :
    jparse (f + 1) ('{' :: ('\n' :: X))
      = cond (headIs (wsDrop X) '}') (some (.obj .onil, (wsDrop X).tail))
          ((jparseFields f (wsDrop X)).map (fun p => (.obj p.1, p.2))) := by
  simp only [jparse]
  rw [wsDrop_cons_nonws (by decide)]
  rfl

/-- One member-parser step through a rendered key, its colon, and the single
space indent mode puts after it. -/
theorem jparseFields_key_step (f : Nat) (k : String) (Y : List Char) :
    jparseFields (f + 1) ('"' :: (escAll k.data ++ '"' :: (':' :: (' ' :: Y))))
      = (match jparse f (' ' :: Y) with
         | none => none
         | some (v, r3) =>
           match wsDrop r3 with
           | ',' :: r4 => (jparseFields f r4).map (fun p => (.ocons k v p.1, p.2))
           | '}' :: r4 => some (.ocons k v .onil, r4)
           | _ => none) := by
  simp only [jparseFields]
  rw [wsDrop_cons_nonws (by decide)]
  simp only [readStrBody_escAll]
  rw [wsDrop_cons_nonws (by decide)]
  rfl

theorem digBreak_cons {c : Char} (h : isDigitChar c = false) (x : List Char) :
    digBreak (c :: x) = true := by
  simp [digBreak, h]

mutual

theorem rtV : ∀ (j : Json) (d fuel : Nat) (rest : List Char),
    jsize j < fuel → digBreak rest = true →
    jparse fuel (pretty d j ++ rest) = some (j, rest)
  | .null, d, fuel, rest, hf, _ => by
    match fuel, hf with
    | f + 1, _ => simp [pretty, jparse, wsDrop, isWsChar]
  | .bool b, d, fuel, rest, hf, _ => by
    match fuel, hf with
    | f + 1, _ => cases b <;> simp [pretty, jparse, wsDrop, isWsChar]
  | .str s, d, fuel, rest, hf, _ => by
    match fuel, hf with
    | f + 1, _ =>
      have harg : pretty d (.str s) ++ rest = '"' :: (escAll s.data ++ '"' :: rest) := by
        simp [pretty, strQuote]
      rw [harg]
      simp [jparse, wsDrop, isWsChar, readStrBody_escAll]
  | .num n, d, fuel, rest, hf, hrest => by
    match fuel, hf with
    | f + 1, _ =>
      by_cases hneg : n < 0
      · have harg : pretty d (.num n) ++ rest = '-' :: (natChsW n.natAbs ++ rest) := by
          simp [pretty, intChs, hneg, natChs_eq]
        have hback : '-' :: (natChsW n.natAbs ++ rest) = intChs n ++ rest := harg ▸ rfl
        rw [harg, jparse_num_arm f '-' _ rfl (by decide) rfl, hback,
          readNum_intChs n rest hrest]
        rfl
      · obtain ⟨c, t, hct, hc⟩ := natChsW_head n.natAbs
        obtain ⟨_, hws, _⟩ := digit_not_special hc
        have harg : pretty d (.num n) ++ rest = c :: (t ++ rest) := by
          simp [pretty, intChs, hneg, natChs_eq, hct]
        have hback : c :: (t ++ rest) = intChs n ++ rest := harg ▸ rfl
        rw [harg, jparse_num_arm f c _ hws (digit_not_starts hc) (by simp [hc]), hback,
          readNum_intChs n rest hrest]
        rfl
  | .arr .anil, d, fuel, rest, hf, _ => by
    match fuel, hf with
    | f + 1, _ => simp [pretty, jparse, wsDrop, isWsChar, headIs]
  | .arr (.acons h t), d, fuel, rest, hf, _ => by
    match fuel, hf with
    | f + 1, hf =>
      have hsz : asize (.acons h t) < f := by
        simp only [jsize] at hf; omega
      have harg : pretty d (.arr (.acons h t)) ++ rest
          = '[' :: ('\n' :: (indentChs (d + 1)
            ++ (prettyItems d (.acons h t) ++ '\n' :: (indentChs d ++ ']' :: rest)))) := by
        simp [pretty, List.append_assoc]
      rw [harg, jparse_arr_step, wsDrop_indent, wsDrop_prettyItems]
      obtain ⟨c0, t0, hct, hb, _, _⟩ := prettyItemsHead d h t
      have hhead : headIs (prettyItems d (.acons h t)
          ++ '\n' :: (indentChs d ++ ']' :: rest)) ']' = false := by
        rw [hct, List.cons_append]
        exact headIs_cons_ne _ hb
      rw [hhead, cond_false, rtA h t d f rest hsz]
      rfl
  | .obj .onil, d, fuel, rest, hf, _ => by
    match fuel, hf with
    | f + 1, _ => simp [pretty, jparse, wsDrop, isWsChar, headIs]
  | .obj (.ocons k v t), d, fuel, rest, hf, _ => by
    match fuel, hf with
    | f + 1, hf =>
      have hsz : osize (.ocons k v t) < f := by
        simp only [jsize] at hf; omega
      have harg : pretty d (.obj (.ocons k v t)) ++ rest
          = '{' :: ('\n' :: (indentChs (d + 1)
            ++ (prettyFields d (.ocons k v t) ++ '\n' :: (indentChs d ++ '}' :: rest)))) := by
        simp [pretty, List.append_assoc]
      rw [harg, jparse_obj_step, wsDrop_indent, wsDrop_prettyFields]
      obtain ⟨cs0, hcs0⟩ := prettyFieldsHead d k v t
      have hhead : headIs (prettyFields d (.ocons k v t)
          ++ '\n' :: (indentChs d ++ '}' :: rest)) '}' = false := by
        rw [hcs0, List.cons_append]
        exact headIs_cons_ne _ (by decide)
      rw [hhead, cond_false, rtO k v t d f rest hsz]
      rfl
termination_by j _ _ _ _ _ => sizeOf j

theorem rtA : ∀ (h : Json) (t : JsonA) (d fuel : Nat) (rest : List Char),
    asize (.acons h t) < fuel →
    jparseItems fuel (prettyItems d (.acons h t) ++ '\n' :: (indentChs d ++ ']' :: rest))
      = some (.acons h t, rest)
  | h, .anil, d, fuel, rest, hf => by
    match fuel, hf with
    | f + 1, hf =>
      have hj : jsize h < f := by simp only [asize] at hf; omega
      have harg : prettyItems d (.acons h .anil) ++ '\n' :: (indentChs d ++ ']' :: rest)
          = pretty (d + 1) h ++ '\n' :: (indentChs d ++ ']' :: rest) := by
        simp [prettyItems]
      rw [harg]
      have hv := rtV h (d + 1) f ('\n' :: (indentChs d ++ ']' :: rest)) hj (digBreak_cons (by decide) _)
      simp only [jparseItems, hv]
      rw [wsDrop_nl, wsDrop_indent]
      rfl
  | h, .acons h2 t2, d, fuel, rest, hf => by
    match fuel, hf with
    | f + 1, hf =>
      have hj : jsize h < f := by simp only [asize] at hf; omega
      have ht2 : asize (.acons h2 t2) < f := by simp only [asize] at hf ⊢; omega
      have harg : prettyItems d (.acons h (.acons h2 t2)) ++ '\n' :: (indentChs d ++ ']' :: rest)
          = pretty (d + 1) h ++ ',' :: ('\n' :: (indentChs (d + 1)
            ++ (prettyItems d (.acons h2 t2) ++ '\n' :: (indentChs d ++ ']' :: rest)))) := by
        simp [prettyItems, List.append_assoc]
      rw [harg]
      have hv := rtV h (d + 1) f (',' :: ('\n' :: (indentChs (d + 1)
        ++ (prettyItems d (.acons h2 t2) ++ '\n' :: (indentChs d ++ ']' :: rest))))) hj (digBreak_cons (by decide) _)
      simp only [jparseItems, hv]
      rw [wsDrop_cons_nonws (by decide)]
      show (jparseItems f ('\n' :: (indentChs (d + 1)
          ++ (prettyItems d (.acons h2 t2) ++ '\n' :: (indentChs d ++ ']' :: rest))))).map
            (fun p => (JsonA.acons h p.1, p.2))
        = some (.acons h (.acons h2 t2), rest)
      have hcongr : jparseItems f ('\n' :: (indentChs (d + 1)
            ++ (prettyItems d (.acons h2 t2) ++ '\n' :: (indentChs d ++ ']' :: rest))))
          = jparseItems f (prettyItems d (.acons h2 t2)
              ++ '\n' :: (indentChs d ++ ']' :: rest)) := by
        apply jparseItems_congr
        rw [wsDrop_nl, wsDrop_indent]
      rw [hcongr, rtA h2 t2 d f rest ht2]
      rfl
termination_by h t _ _ _ _ => sizeOf h + sizeOf t

theorem rtO : ∀ (k : String) (v : Json) (t : JsonO) (d fuel : Nat) (rest : List Char),
    osize (.ocons k v t) < fuel →
    jparseFields fuel (prettyFields d (.ocons k v t) ++ '\n' :: (indentChs d ++ '}' :: rest))
      = some (.ocons k v t, rest)
  | k, v, .onil, d, fuel, rest, hf => by
    match fuel, hf with
    | f + 1, hf =>
      have hj : jsize v < f := by simp only [osize] at hf; omega
      have harg : prettyFields d (.ocons k v .onil) ++ '\n' :: (indentChs d ++ '}' :: rest)
          = '"' :: (escAll k.data ++ '"' :: (':' :: (' '
            :: (pretty (d + 1) v ++ '\n' :: (indentChs d ++ '}' :: rest))))) := by
        simp [prettyFields, strQuote, List.append_assoc]
      rw [harg, jparseFields_key_step]
      have hcg : jparse f (' ' :: (pretty (d + 1) v ++ '\n' :: (indentChs d ++ '}' :: rest)))
          = jparse f (pretty (d + 1) v ++ '\n' :: (indentChs d ++ '}' :: rest)) :=
        jparse_congr f (by rw [wsDrop_cons_ws (by decide)])
      have hv : jparse f (' ' :: (pretty (d + 1) v ++ '\n' :: (indentChs d ++ '}' :: rest)))
          = some (v, '\n' :: (indentChs d ++ '}' :: rest)) := by
        rw [hcg]
        exact rtV v (d + 1) f ('\n' :: (indentChs d ++ '}' :: rest)) hj (digBreak_cons (by decide) _)
      simp only [hv]
      rw [wsDrop_nl, wsDrop_indent]
      rfl
  | k, v, .ocons k2 v2 t2, d, fuel, rest, hf => by
    match fuel, hf with
    | f + 1, hf =>
      have hj : jsize v < f := by simp only [osize] at hf; omega
      have ht2 : osize (.ocons k2 v2 t2) < f := by simp only [osize] at hf ⊢; omega
      have harg : prettyFields d (.ocons k v (.ocons k2 v2 t2))
            ++ '\n' :: (indentChs d ++ '}' :: rest)
          = '"' :: (escAll k.data ++ '"' :: (':' :: (' '
            :: (pretty (d + 1) v ++ ',' :: ('\n' :: (indentChs (d + 1)
              ++ (prettyFields d (.ocons k2 v2 t2)
                ++ '\n' :: (indentChs d ++ '}' :: rest)))))))) := by
        simp [prettyFields, strQuote, List.append_assoc]
      rw [harg, jparseFields_key_step]
      have hcg : jparse f (' ' :: (pretty (d + 1) v ++ ',' :: ('\n' :: (indentChs (d + 1)
            ++ (prettyFields d (.ocons k2 v2 t2) ++ '\n' :: (indentChs d ++ '}' :: rest))))))
          = jparse f (pretty (d + 1) v ++ ',' :: ('\n' :: (indentChs (d + 1)
            ++ (prettyFields d (.ocons k2 v2 t2) ++ '\n' :: (indentChs d ++ '}' :: rest))))) :=
        jparse_congr f (by rw [wsDrop_cons_ws (by decide)])
      have hv : jparse f (' ' :: (pretty (d + 1) v ++ ',' :: ('\n' :: (indentChs (d + 1)
            ++ (prettyFields d (.ocons k2 v2 t2) ++ '\n' :: (indentChs d ++ '}' :: rest))))))
          = some (v, ',' :: ('\n' :: (indentChs (d + 1)
            ++ (prettyFields d (.ocons k2 v2 t2) ++ '\n' :: (indentChs d ++ '}' :: rest))))) := by
        rw [hcg]
        exact rtV v (d + 1) f (',' :: ('\n' :: (indentChs (d + 1)
          ++ (prettyFields d (.ocons k2 v2 t2) ++ '\n' :: (indentChs d ++ '}' :: rest)))))
          hj (digBreak_cons (by decide) _)
      simp only [hv]
      rw [wsDrop_cons_nonws (by decide)]
      show (jparseFields f ('\n' :: (indentChs (d + 1)
          ++ (prettyFields d (.ocons k2 v2 t2) ++ '\n' :: (indentChs d ++ '}' :: rest))))).map
            (fun p => (JsonO.ocons k v p.1, p.2))
        = some (.ocons k v (.ocons k2 v2 t2), rest)
      have hcongr : jparseFields f ('\n' :: (indentChs (d + 1)
            ++ (prettyFields d (.ocons k2 v2 t2) ++ '\n' :: (indentChs d ++ '}' :: rest))))
          = jparseFields f (prettyFields d (.ocons k2 v2 t2)
              ++ '\n' :: (indentChs d ++ '}' :: rest)) := by
        apply jparseFields_congr
        rw [wsDrop_nl, wsDrop_indent]
      rw [hcongr, rtO k2 v2 t2 d f rest ht2]
      rfl
termination_by _ v t _ _ _ _ => sizeOf v + sizeOf t

end

/-- The codec round-trip for the wire format `upload` emits: parsing the
pretty-printed rendering recovers the value exactly. -/
theorem parse_stringify2 (j : Json) : Json.parse (stringify2 j) = some j := by
  have hdata : (stringify2 j).data = pretty 0 j := rfl
  rw [Json.parse, hdata]
  have hlen : jsize j < (pretty 0 j).length + 1 := by
    have := jsize_le 0 j
    omega
  have := rtV j 0 ((pretty 0 j).length + 1) [] hlen (by decide)
  rw [List.append_nil] at this
  rw [this]
  rfl

/-! ## Requests-issued bounds (shared by several claims) -/

theorem gistUpload_requests (cfg : SyncConfig) (d : SyncData) (net : Request → Response)
    (h : optTruthy cfg.gistToken = true) :
    (gistUpload cfg d net).requests = [gistUploadRequest cfg d] := by
  rw [gistUpload, h]
  by_cases hok : (net (gistUploadRequest cfg d)).ok
  · simp only [hok]
    cases hp : Json.parse (net (gistUploadRequest cfg d)).body with
    | none => simp [hp]
    | some r =>
      simp only [hp]
      cases hg : r.getProp "id" with
      | error te => simp [hg]
      | ok idv => simp [hg]
  · simp [hok]

theorem gistDownload_requests (cfg : SyncConfig) (net : Request → Response)
    (h1 : optTruthy cfg.gistToken = true) (h2 : optTruthy cfg.gistId = true) :
    (gistDownload cfg net).requests = [gistDownloadRequest cfg] := by
  rw [gistDownload, h1, h2]
  by_cases hok : (net (gistDownloadRequest cfg)).ok <;> simp [hok]

theorem webdavUpload_requests (cfg : SyncConfig) (d : SyncData) (net : Request → Response)
    (h : optTruthy cfg.webdavUrl = true) (auth : String) (ha : webdavAuth cfg = .ok auth) :
    (webdavUpload cfg d net).requests = [webdavUploadRequest cfg d auth] := by
  rw [webdavUpload, h, ha]
  by_cases hok : (net (webdavUploadRequest cfg d auth)).ok <;> simp [hok]

theorem webdavDownload_requests (cfg : SyncConfig) (net : Request → Response)
    (h : optTruthy cfg.webdavUrl = true) (auth : String) (ha : webdavAuth cfg = .ok auth) :
    (webdavDownload cfg net).requests = [webdavDownloadRequest cfg auth] := by
  rw [webdavDownload, h, ha]
  by_cases hok : (net (webdavDownloadRequest cfg auth)).ok
  · simp only [hok]
    cases hp : Json.parse (net (webdavDownloadRequest cfg auth)).body <;> simp [hp]
  · simp [hok]

/-! ## The claims -/

/-- C1: for every config with `provider = GIST` and no `gistToken`,
`GistProvider.upload` fails with the local validation error and issues zero
network requests; `GistProvider.download` fails the same way whenever
`gistToken` or `gistId` is absent, with no request issued. -/
theorem claim_C1_gist_validation :
    (∀ (cfg : SyncConfig) (d : SyncData) (net : Request → Response),
      cfg.provider = .GIST → cfg.gistToken = none →
      gistUpload cfg d net = ⟨[], .error ⟨.jsError, "Gist Token is required"⟩⟩)
    ∧ (∀ (cfg : SyncConfig) (net : Request → Response),
      cfg.provider = .GIST → (cfg.gistToken = none ∨ cfg.gistId = none) →
      gistDownload cfg net
        = ⟨[], .error ⟨.jsError, "Gist Token and ID are required for download"⟩⟩) := by
  constructor
  · intro cfg d net _ htok
    simp [gistUpload, optTruthy, htok]
  · intro cfg net _ h
    rcases h with h | h <;> simp [gistDownload, optTruthy, h]

theorem claim_C1_witness :
    let cfg : SyncConfig :=
      { provider := .GIST, syncBookmarks := true, syncExtensions := true,
        syncHistory := true, autoSyncInterval := 60 }
    cfg.provider = .GIST ∧ cfg.gistToken = none
    ∧ gistUpload cfg ⟨"t0", "1.0.0", .anil, .anil, .anil⟩ (fun _ => ⟨true, "OK", "null"⟩)
        = ⟨[], .error ⟨.jsError, "Gist Token is required"⟩⟩
    ∧ gistDownload cfg (fun _ => ⟨true, "OK", "null"⟩)
        = ⟨[], .error ⟨.jsError, "Gist Token and ID are required for download"⟩⟩ :=
  ⟨rfl, rfl,
    claim_C1_gist_validation.1 _ _ _ rfl rfl,
    claim_C1_gist_validation.2 _ _ rfl (Or.inl rfl)⟩

/-- C2: for every config with `provider = WEBDAV` and no `webdavUrl`, both
WebDAV operations fail with the local validation error and issue zero
network requests. -/
theorem claim_C2_webdav_validation :
    ∀ (cfg : SyncConfig) (d : SyncData) (net : Request → Response),
      cfg.provider = .WEBDAV → cfg.webdavUrl = none →
      webdavUpload cfg d net = ⟨[], .error ⟨.jsError, "WebDAV URL is required"⟩⟩
      ∧ webdavDownload cfg net = ⟨[], .error ⟨.jsError, "WebDAV URL is required"⟩⟩ := by
  intro cfg d net _ hurl
  constructor
  · simp [webdavUpload, optTruthy, hurl]
  · simp [webdavDownload, optTruthy, hurl]

theorem claim_C2_witness :
    let cfg : SyncConfig :=
      { provider := .WEBDAV, syncBookmarks := true, syncExtensions := true,
        syncHistory := true, autoSyncInterval := 60 }
    cfg.provider = .WEBDAV ∧ cfg.webdavUrl = none
    ∧ webdavUpload cfg ⟨"t0", "1.0.0", .anil, .anil, .anil⟩ (fun _ => ⟨true, "OK", "null"⟩)
        = ⟨[], .error ⟨.jsError, "WebDAV URL is required"⟩⟩
    ∧ webdavDownload cfg (fun _ => ⟨true, "OK", "null"⟩)
        = ⟨[], .error ⟨.jsError, "WebDAV URL is required"⟩⟩ :=
  ⟨rfl, rfl,
    (claim_C2_webdav_validation _ ⟨"t0", "1.0.0", .anil, .anil, .anil⟩
      (fun _ => ⟨true, "OK", "null"⟩) rfl rfl).1,
    (claim_C2_webdav_validation _ ⟨"t0", "1.0.0", .anil, .anil, .anil⟩
      (fun _ => ⟨true, "OK", "null"⟩) rfl rfl).2⟩

/-- C5 as frozen is false on the code: the claim says every provider
operation surfaces the backend's own error message when the backend supplies
one, but `GistProvider.download` on a non-ok response with body
`{"message": "Bad credentials"}` raises the fixed generic message and never
reads the body. -/
theorem claim_C5_counterexample :
    (gistDownload
      { provider := .GIST, gistToken := some "t", gistId := some "g",
        syncBookmarks := true, syncExtensions := true, syncHistory := true,
        autoSyncInterval := 60 }
      (fun _ => ⟨false, "Unauthorized", "\x7b\"message\": \"Bad credentials\"\x7d"⟩)).result
      = .error ⟨.jsError, "Failed to download from Gist"⟩
    ∧ Json.parse "\x7b\"message\": \"Bad credentials\"\x7d"
        = some (.obj (.ocons "message" (.str "Bad credentials") .onil))
    ∧ "Failed to download from Gist" ≠ "Bad credentials" :=
  ⟨rfl, rfl, by decide⟩

/-- C5 amended: exactly one attempt per call with no retry; `GistProvider.upload`
surfaces the backend body's `message` when it is a truthy string and falls
back to its generic message otherwise; `GistProvider.download` raises a fixed
generic message regardless of the body; the WebDAV operations raise messages
embedding the transport status text. -/
theorem claim_C5_amended :
    (∀ cfg d net, (gistUpload cfg d net).requests.length ≤ 1)
    ∧ (∀ cfg net, (gistDownload cfg net).requests.length ≤ 1)
    ∧ (∀ cfg d net, (webdavUpload cfg d net).requests.length ≤ 1)
    ∧ (∀ cfg net, (webdavDownload cfg net).requests.length ≤ 1)
    ∧ (∀ cfg d net e m, optTruthy cfg.gistToken = true →
        (net (gistUploadRequest cfg d)).ok = false →
        Json.parse (net (gistUploadRequest cfg d)).body = some e →
        e.getProp "message" = .ok (some (.str m)) → m ≠ "" →
        (gistUpload cfg d net).result = .error ⟨.jsError, m⟩)
    ∧ (∀ cfg d net e, optTruthy cfg.gistToken = true →
        (net (gistUploadRequest cfg d)).ok = false →
        Json.parse (net (gistUploadRequest cfg d)).body = some e →
        e.getProp "message" = .ok none →
        (gistUpload cfg d net).result = .error ⟨.jsError, "Failed to upload to Gist"⟩)
    ∧ (∀ cfg net, optTruthy cfg.gistToken = true → optTruthy cfg.gistId = true →
        (net (gistDownloadRequest cfg)).ok = false →
        (gistDownload cfg net).result = .error ⟨.jsError, "Failed to download from Gist"⟩)
    ∧ (∀ cfg d net auth, optTruthy cfg.webdavUrl = true → webdavAuth cfg = .ok auth →
        (net (webdavUploadRequest cfg d auth)).ok = false →
        (webdavUpload cfg d net).result = .error ⟨.jsError,
          "WebDAV Upload Failed: " ++ (net (webdavUploadRequest cfg d auth)).statusText⟩)
    ∧ (∀ cfg net auth, optTruthy cfg.webdavUrl = true → webdavAuth cfg = .ok auth →
        (net (webdavDownloadRequest cfg auth)).ok = false →
        (webdavDownload cfg net).result = .error ⟨.jsError,
          "WebDAV Download Failed: " ++ (net (webdavDownloadRequest cfg auth)).statusText⟩) := by
  refine ⟨?r1, ?r2, ?r3, ?r4, ?r5, ?r6, ?r7, ?r8, ?r9⟩
  · intro cfg d net
    by_cases h : optTruthy cfg.gistToken
    · rw [gistUpload_requests cfg d net h]; simp
    · simp [gistUpload, h]
  · intro cfg net
    by_cases h1 : optTruthy cfg.gistToken
    · by_cases h2 : optTruthy cfg.gistId
      · rw [gistDownload_requests cfg net h1 h2]; simp
      · simp [gistDownload, h1, h2]
    · simp [gistDownload, h1]
  · intro cfg d net
    by_cases h : optTruthy cfg.webdavUrl
    · cases ha : webdavAuth cfg with
      | error e => simp [webdavUpload, h, ha]
      | ok auth => rw [webdavUpload_requests cfg d net h auth ha]; simp
    · simp [webdavUpload, h]
  · intro cfg net
    by_cases h : optTruthy cfg.webdavUrl
    · cases ha : webdavAuth cfg with
      | error e => simp [webdavDownload, h, ha]
      | ok auth => rw [webdavDownload_requests cfg net h auth ha]; simp
    · simp [webdavDownload, h]
  · intro cfg d net e m htok hok hp hm hne
    simp [gistUpload, htok, hok, gistUploadFailure, hp, hm, Json.isTruthy, hne, jsToStr]
  · intro cfg d net e htok hok hp hm
    simp [gistUpload, htok, hok, gistUploadFailure, hp, hm]
  · intro cfg net htok hid hok
    simp [gistDownload, htok, hid, hok]
  · intro cfg d net auth hurl ha hok
    simp [webdavUpload, hurl, ha, hok]
  · intro cfg net auth hurl ha hok
    simp [webdavDownload, hurl, ha, hok]

theorem claim_C5_witness :
    let cfgG : SyncConfig :=
      { provider := .GIST, gistToken := some "t", syncBookmarks := true,
        syncExtensions := true, syncHistory := true, autoSyncInterval := 60 }
    let cfgW : SyncConfig :=
      { provider := .WEBDAV, webdavUrl := some "https://dav.example",
        syncBookmarks := true, syncExtensions := true, syncHistory := true,
        autoSyncInterval := 60 }
    let netG : Request → Response :=
      fun _ => ⟨false, "Service Unavailable", "\x7b\"message\": \"API limit\"\x7d"⟩
    let netW : Request → Response := fun _ => ⟨false, "Not Found", ""⟩
    optTruthy cfgG.gistToken = true
    ∧ (netG (gistUploadRequest cfgG ⟨"t0", "1.0.0", .anil, .anil, .anil⟩)).ok = false
    ∧ (gistUpload cfgG ⟨"t0", "1.0.0", .anil, .anil, .anil⟩ netG).result
        = .error ⟨.jsError, "API limit"⟩
    ∧ (webdavDownload cfgW netW).result
        = .error ⟨.jsError, "WebDAV Download Failed: Not Found"⟩ :=
  ⟨rfl, rfl,
    claim_C5_amended.2.2.2.2.1 _ _ _
      (.obj (.ocons "message" (.str "API limit") .onil)) "API limit"
      rfl rfl rfl rfl (by decide),
    claim_C5_amended.2.2.2.2.2.2.2.2 _ _
      ("Basic " ++ b64OfAscii "undefined:undefined") rfl rfl rfl⟩

/-- C4: with a token present, a Gist upload with no `gistId` issues the one
`POST` to the collection endpoint and one with a nonempty `gistId` issues the
one `PATCH` addressed by it; the `id` of the parsed response body is returned
to the caller; and when that id is a nonempty string different from the
stored one, `performUpload` stores it in `config.gistId` and persists the
whole updated config to the store. -/
theorem claim_C4_gist_id_flow :
    (∀ (cfg : SyncConfig) (d : SyncData) (net : Request → Response),
      optTruthy cfg.gistToken = true → cfg.gistId = none →
      (gistUpload cfg d net).requests.map (fun r => (r.method, r.url))
        = [("POST", "https://api.github.com/gists")])
    ∧ (∀ (cfg : SyncConfig) (d : SyncData) (net : Request → Response) (s : String),
      optTruthy cfg.gistToken = true → cfg.gistId = some s → s ≠ "" →
      (gistUpload cfg d net).requests.map (fun r => (r.method, r.url))
        = [("PATCH", "https://api.github.com/gists/" ++ s)])
    ∧ (∀ (cfg : SyncConfig) (d : SyncData) (net : Request → Response)
        (r : Json) (idv : Option Json),
      optTruthy cfg.gistToken = true →
      (net (gistUploadRequest cfg d)).ok = true →
      Json.parse (net (gistUploadRequest cfg d)).body = some r →
      r.getProp "id" = .ok idv →
      (gistUpload cfg d net).result = .ok idv)
    ∧ (∀ (st : AppState) (ins : Option Json) (env : UploadEnv) (s : String) (r : Json),
      st.isSyncing = false → st.config.provider = .GIST →
      optTruthy st.config.gistToken = true →
      (env.net (gistUploadRequest st.config (builtSnapshot st.config env))).ok = true →
      Json.parse (env.net (gistUploadRequest st.config (builtSnapshot st.config env))).body
        = some r →
      r.getProp "id" = .ok (some (.str s)) → s ≠ "" → st.config.gistId ≠ some s →
      (performUpload st ins env).state.config.gistId = some s
      ∧ (performUpload st ins env).savedConfigs = [{ st.config with gistId := some s }]) := by
  refine ⟨?_, ?_, ?_, ?_⟩
  · intro cfg d net htok hid
    rw [gistUpload_requests cfg d net htok]
    simp [gistUploadRequest, optTruthy, hid]
  · intro cfg d net s htok hid hs
    rw [gistUpload_requests cfg d net htok]
    simp [gistUploadRequest, optTruthy, hid, hs]
  · intro cfg d net r idv htok hok hp hid
    simp [gistUpload, htok, hok, hp, hid]
  · intro st ins env s r hbusy hprov htok hok hp hid hs hneq
    have hup : gistUpload st.config (builtSnapshot st.config env) env.net
        = ⟨[gistUploadRequest st.config (builtSnapshot st.config env)],
            .ok (some (.str s))⟩ := by
      simp [gistUpload, htok, hok, hp, hid]
    have hdisp : providerUpload StorageProvider.GIST st.config
        (builtSnapshot st.config env) env.net
        = gistUpload st.config (builtSnapshot st.config env) env.net := rfl
    constructor <;>
      simp [performUpload, hbusy, hprov, hdisp, hup, gistIdUpdate, hs, hneq, addLog]

theorem claim_C4_witness :
    let cfg : SyncConfig :=
      { provider := .GIST, gistToken := some "t", syncBookmarks := true,
        syncExtensions := true, syncHistory := true, autoSyncInterval := 60 }
    let env : UploadEnv :=
      ⟨.anil, .anil, .anil, fun _ => "ts",
        fun _ => ⟨true, "OK", "\x7b\"id\": \"abc\"\x7d"⟩, .ok "null"⟩
    let st : AppState := ⟨cfg, [], false, none⟩
    st.isSyncing = false ∧ st.config.provider = .GIST
    ∧ optTruthy st.config.gistToken = true
    ∧ (gistUpload cfg (builtSnapshot cfg env) env.net).requests.map
        (fun r => (r.method, r.url)) = [("POST", "https://api.github.com/gists")]
    ∧ (performUpload st none env).state.config.gistId = some "abc"
    ∧ (performUpload st none env).savedConfigs = [{ cfg with gistId := some "abc" }] := by
  intro cfg env st
  refine ⟨rfl, rfl, rfl, claim_C4_gist_id_flow.1 cfg (builtSnapshot cfg env) env.net rfl rfl,
    ?_, ?_⟩
  · exact (claim_C4_gist_id_flow.2.2.2 st none env "abc"
      (.obj (.ocons "id" (.str "abc") .onil))
      rfl rfl rfl rfl rfl rfl (by decide) (by decide)).1
  · exact (claim_C4_gist_id_flow.2.2.2 st none env "abc"
      (.obj (.ocons "id" (.str "abc") .onil))
      rfl rfl rfl rfl rfl rfl (by decide) (by decide)).2

/-- C9: with a `webdavUrl` present but credentials absent, the WebDAV
operations raise no validation error: each sends its one request, whose
basic-auth header is the base64 of a string in which every missing credential
appears as the literal text `undefined`. -/
theorem claim_C9_webdav_undefined_creds :
    (∀ (cfg : SyncConfig) (d : SyncData) (net : Request → Response),
      optTruthy cfg.webdavUrl = true → cfg.webdavUser = none → cfg.webdavPass = none →
      webdavAuth cfg = .ok ("Basic " ++ b64OfAscii "undefined:undefined")
      ∧ (webdavUpload cfg d net).requests
          = [webdavUploadRequest cfg d ("Basic " ++ b64OfAscii "undefined:undefined")]
      ∧ (webdavDownload cfg net).requests
          = [webdavDownloadRequest cfg ("Basic " ++ b64OfAscii "undefined:undefined")]
      ∧ (webdavUploadRequest cfg d ("Basic " ++ b64OfAscii "undefined:undefined")).header
          "Authorization" = some ("Basic " ++ b64OfAscii "undefined:undefined")
      ∧ (webdavDownloadRequest cfg ("Basic " ++ b64OfAscii "undefined:undefined")).header
          "Authorization" = some ("Basic " ++ b64OfAscii "undefined:undefined"))
    ∧ (∀ (cfg : SyncConfig) (p : String),
      cfg.webdavUser = none → cfg.webdavPass = some p → (∀ c ∈ p.data, c.toNat < 256) →
      webdavAuth cfg = .ok ("Basic " ++ b64OfAscii ("undefined:" ++ p)))
    ∧ (∀ (cfg : SyncConfig) (u : String),
      cfg.webdavUser = some u → cfg.webdavPass = none → (∀ c ∈ u.data, c.toNat < 256) →
      webdavAuth cfg = .ok ("Basic " ++ b64OfAscii (u ++ ":undefined"))) := by
  refine ⟨?_, ?_, ?_⟩
  · intro cfg d net hurl hu hp
    have ha : webdavAuth cfg = .ok ("Basic " ++ b64OfAscii "undefined:undefined") := by
      rw [webdavAuth, hu, hp]
      rfl
    exact ⟨ha, webdavUpload_requests cfg d net hurl _ ha,
      webdavDownload_requests cfg net hurl _ ha, rfl, rfl⟩
  · intro cfg p hu hp hascii
    rw [webdavAuth, hu, hp]
    have hall : (("undefined" : String) ++ ":" ++ p).data.all
        (fun c => c.toNat < 256) = true := by
      rw [show (("undefined" : String) ++ ":" ++ p).data
          = ("undefined:" : String).data ++ p.data by simp]
      rw [List.all_append]
      refine Bool.and_eq_true_iff.mpr ⟨by decide, ?_⟩
      rw [List.all_eq_true]
      intro c hc
      simpa using hascii c hc
    simp only [jsOptStr, Option.getD_none, Option.getD_some, btoa, hall, if_true]
    have hjoin : ("undefined" : String) ++ ":" ++ p = "undefined:" ++ p := by
      have : (("undefined" : String) ++ ":" ++ p).data = (("undefined:" : String) ++ p).data := by
        simp
      exact congrArg String.mk this
    rw [hjoin]
    rfl
  · intro cfg u hu hp hascii
    rw [webdavAuth, hu, hp]
    have hall : (u ++ ":" ++ ("undefined" : String)).data.all
        (fun c => c.toNat < 256) = true := by
      rw [show (u ++ ":" ++ ("undefined" : String)).data
          = u.data ++ (":undefined" : String).data by simp]
      rw [List.all_append]
      refine Bool.and_eq_true_iff.mpr ⟨?_, by decide⟩
      rw [List.all_eq_true]
      intro c hc
      simpa using hascii c hc
    simp only [jsOptStr, Option.getD_none, Option.getD_some, btoa, hall, if_true]
    have hjoin : u ++ ":" ++ ("undefined" : String) = u ++ ":undefined" := by
      have : (u ++ ":" ++ ("undefined" : String)).data = (u ++ (":undefined" : String)).data := by
        simp
      exact congrArg String.mk this
    rw [hjoin]
    rfl

theorem claim_C9_witness :
    let cfg : SyncConfig :=
      { provider := .WEBDAV, webdavUrl := some "https://dav.example/",
        syncBookmarks := true, syncExtensions := true, syncHistory := true,
        autoSyncInterval := 60 }
    optTruthy cfg.webdavUrl = true ∧ cfg.webdavUser = none ∧ cfg.webdavPass = none
    ∧ webdavAuth cfg = .ok ("Basic " ++ b64OfAscii "undefined:undefined")
    ∧ "Basic " ++ b64OfAscii "undefined:undefined" = "Basic dW5kZWZpbmVkOnVuZGVmaW5lZA=="
    ∧ (webdavUpload cfg ⟨"t0", "1.0.0", .anil, .anil, .anil⟩
        (fun _ => ⟨true, "OK", "null"⟩)).requests
        = [webdavUploadRequest cfg ⟨"t0", "1.0.0", .anil, .anil, .anil⟩
            ("Basic " ++ b64OfAscii "undefined:undefined")] := by
  intro cfg
  refine ⟨rfl, rfl, rfl, ?_, rfl, ?_⟩
  · exact (claim_C9_webdav_undefined_creds.1 cfg ⟨"t0", "1.0.0", .anil, .anil, .anil⟩
      (fun _ => ⟨true, "OK", "null"⟩) rfl rfl rfl).1
  · exact (claim_C9_webdav_undefined_creds.1 cfg ⟨"t0", "1.0.0", .anil, .anil, .anil⟩
      (fun _ => ⟨true, "OK", "null"⟩) rfl rfl rfl).2.1

/-- C10: both downloads return the parsed payload with no shape or version
validation: any parseable content (for Gist, a present non-empty
`sync_data.json` entry) is returned exactly as parsed, whatever fields it has;
the only decode failures are an absent entry, empty content, and unparseable
JSON. -/
theorem claim_C10_no_validation :
    (∀ (cfg : SyncConfig) (net : Request → Response) (r files file : Json)
        (content : String) (j : Json),
      optTruthy cfg.gistToken = true → optTruthy cfg.gistId = true →
      (net (gistDownloadRequest cfg)).ok = true →
      Json.parse (net (gistDownloadRequest cfg)).body = some r →
      r.getProp "files" = .ok (some files) →
      files.getProp "sync_data.json" = .ok (some file) →
      file.isTruthy = true →
      file.getProp "content" = .ok (some (.str content)) →
      content ≠ "" →
      Json.parse content = some j →
      (gistDownload cfg net).result = .ok j)
    ∧ (∀ (cfg : SyncConfig) (net : Request → Response) (r files : Json),
      optTruthy cfg.gistToken = true → optTruthy cfg.gistId = true →
      (net (gistDownloadRequest cfg)).ok = true →
      Json.parse (net (gistDownloadRequest cfg)).body = some r →
      r.getProp "files" = .ok (some files) →
      files.getProp "sync_data.json" = .ok none →
      (gistDownload cfg net).result
        = .error ⟨.jsError, "Sync data file not found in Gist"⟩)
    ∧ (∀ (cfg : SyncConfig) (net : Request → Response) (r files file : Json),
      optTruthy cfg.gistToken = true → optTruthy cfg.gistId = true →
      (net (gistDownloadRequest cfg)).ok = true →
      Json.parse (net (gistDownloadRequest cfg)).body = some r →
      r.getProp "files" = .ok (some files) →
      files.getProp "sync_data.json" = .ok (some file) →
      file.isTruthy = true →
      file.getProp "content" = .ok (some (.str "")) →
      (gistDownload cfg net).result
        = .error ⟨.jsError, "Sync data file not found in Gist"⟩)
    ∧ (∀ (cfg : SyncConfig) (net : Request → Response) (r files file : Json)
        (content : String),
      optTruthy cfg.gistToken = true → optTruthy cfg.gistId = true →
      (net (gistDownloadRequest cfg)).ok = true →
      Json.parse (net (gistDownloadRequest cfg)).body = some r →
      r.getProp "files" = .ok (some files) →
      files.getProp "sync_data.json" = .ok (some file) →
      file.isTruthy = true →
      file.getProp "content" = .ok (some (.str content)) →
      content ≠ "" →
      Json.parse content = none →
      (gistDownload cfg net).result
        = .error ⟨.jsSyntaxError, "Unexpected token in JSON"⟩)
    ∧ (∀ (cfg : SyncConfig) (net : Request → Response) (auth : String) (j : Json),
      optTruthy cfg.webdavUrl = true → webdavAuth cfg = .ok auth →
      (net (webdavDownloadRequest cfg auth)).ok = true →
      Json.parse (net (webdavDownloadRequest cfg auth)).body = some j →
      (webdavDownload cfg net).result = .ok j)
    ∧ (∀ (cfg : SyncConfig) (net : Request → Response) (auth : String),
      optTruthy cfg.webdavUrl = true → webdavAuth cfg = .ok auth →
      (net (webdavDownloadRequest cfg auth)).ok = true →
      Json.parse (net (webdavDownloadRequest cfg auth)).body = none →
      (webdavDownload cfg net).result
        = .error ⟨.jsSyntaxError, "Unexpected token in JSON"⟩) := by
  refine ⟨?p1, ?p2, ?p3, ?p4, ?p5, ?p6⟩
  · intro cfg net r files file content j htok hid hok hp hfiles hfile htr hcontent hclen hpc
    have hct : (Json.str content).isTruthy = true := by simp [Json.isTruthy, hclen]
    simp [gistDownload, htok, hid, hok, gistDecodeBody, hp, hfiles, hfile, htr, hcontent,
      hct, jsonParseJs, jsToStr, hpc]
  · intro cfg net r files htok hid hok hp hfiles hfile
    simp [gistDownload, htok, hid, hok, gistDecodeBody, hp, hfiles, hfile]
  · intro cfg net r files file htok hid hok hp hfiles hfile htr hcontent
    simp [gistDownload, htok, hid, hok, gistDecodeBody, hp, hfiles, hfile, htr, hcontent,
      Json.isTruthy]
  · intro cfg net r files file content htok hid hok hp hfiles hfile htr hcontent hclen hpc
    have hct : (Json.str content).isTruthy = true := by simp [Json.isTruthy, hclen]
    simp [gistDownload, htok, hid, hok, gistDecodeBody, hp, hfiles, hfile, htr, hcontent,
      hct, jsonParseJs, jsToStr, hpc]
  · intro cfg net auth j hurl ha hok hp
    simp [webdavDownload, hurl, ha, hok, hp]
  · intro cfg net auth hurl ha hok hp
    simp [webdavDownload, hurl, ha, hok, hp]

theorem claim_C10_witness :
    let cfg : SyncConfig :=
      { provider := .GIST, gistToken := some "t", gistId := some "g",
        syncBookmarks := true, syncExtensions := true, syncHistory := true,
        autoSyncInterval := 60 }
    let body : String :=
      "\x7b\"files\": \x7b\"sync_data.json\": \x7b\"content\": \"\x7b\\\"weird\\\": 1\x7d\"\x7d\x7d\x7d"
    let net : Request → Response := fun _ => ⟨true, "OK", body⟩
    optTruthy cfg.gistToken = true ∧ optTruthy cfg.gistId = true
    ∧ Json.parse "\x7b\\\"weird\\\": 1\x7d".data.asString = none
    ∧ (gistDownload cfg net).result
        = .ok (.obj (.ocons "weird" (.num 1) .onil)) := by
  refine ⟨rfl, rfl, rfl, ?_⟩
  exact claim_C10_no_validation.1 _ _
    (.obj (.ocons "files"
      (.obj (.ocons "sync_data.json"
        (.obj (.ocons "content" (.str "\x7b\"weird\": 1\x7d") .onil)) .onil)) .onil))
    (.obj (.ocons "sync_data.json"
      (.obj (.ocons "content" (.str "\x7b\"weird\": 1\x7d") .onil)) .onil))
    (.obj (.ocons "content" (.str "\x7b\"weird\": 1\x7d") .onil))
    "\x7b\"weird\": 1\x7d" (.obj (.ocons "weird" (.num 1) .onil))
    rfl rfl rfl rfl rfl rfl rfl rfl (by decide) rfl

/-- C3: the busy flag is a two-state machine: an invocation of either
operation while the flag is set returns immediately with no request and no
state change; an invocation that starts sets the flag in its first state
update, keeps it set through every intermediate update, and its single last
update clears it, on success and failure alike. -/
theorem claim_C3_busy_flag :
    (∀ st ins env, st.isSyncing = true →
      performUpload st ins env = ⟨st, ins, [], [], [], none, false⟩)
    ∧ (∀ st env, st.isSyncing = true → performDownload st env = ⟨st, [], []⟩)
    ∧ (∀ st ins env, st.isSyncing = false →
        (performUpload st ins env).trace.head?
          = some { st with isSyncing := true }
        ∧ (∀ s ∈ (performUpload st ins env).trace.dropLast, s.isSyncing = true)
        ∧ (performUpload st ins env).trace.getLast? = some (performUpload st ins env).state
        ∧ (performUpload st ins env).state.isSyncing = false)
    ∧ (∀ st env, st.isSyncing = false →
        (performDownload st env).trace.head? = some { st with isSyncing := true }
        ∧ (∀ s ∈ (performDownload st env).trace.dropLast, s.isSyncing = true)
        ∧ (performDownload st env).trace.getLast? = some (performDownload st env).state
        ∧ (performDownload st env).state.isSyncing = false) := by
  refine ⟨?_, ?_, ?_, ?_⟩
  · intro st ins env h
    simp [performUpload, h]
  · intro st env h
    simp [performDownload, h]
  · intro st ins env h
    simp only [performUpload, h, Bool.false_eq_true, if_false]
    split
    · refine ⟨rfl, ?_, rfl, rfl⟩
      intro s hs
      simp only [List.dropLast, List.mem_cons, List.mem_singleton, List.not_mem_nil] at hs
      rcases hs with h1 | h1 | h1 | hs
      all_goals first
      | (subst h1; rfl)
      | exact absurd hs (by simp)
    · rename_i res _
      cases hcs : gistIdUpdate st.config res with
      | none =>
        refine ⟨by simp [hcs], ?_, by simp [hcs], rfl⟩
        intro s hs
        simp only [hcs, List.dropLast, List.mem_cons, List.not_mem_nil] at hs
        rcases hs with h1 | h1 | h1 | h1 | hs
        all_goals first
        | (subst h1; rfl)
        | exact absurd hs (by simp)
      | some c =>
        refine ⟨by simp [hcs], ?_, by simp [hcs], rfl⟩
        intro s hs
        simp only [hcs, List.dropLast, List.mem_cons, List.not_mem_nil] at hs
        rcases hs with h1 | h1 | h1 | h1 | h1 | hs
        all_goals first
        | (subst h1; rfl)
        | exact absurd hs (by simp)
  · intro st env h
    simp only [performDownload, h, Bool.false_eq_true, if_false]
    split
    · refine ⟨rfl, ?_, rfl, rfl⟩
      intro s hs
      simp only [List.dropLast, List.mem_cons, List.not_mem_nil] at hs
      rcases hs with h1 | h1 | h1 | hs
      all_goals first
      | (subst h1; rfl)
      | exact absurd hs (by simp)
    · rename_i data _
      split
      · refine ⟨rfl, ?_, rfl, rfl⟩
        intro s hs
        simp only [List.dropLast, List.mem_cons, List.not_mem_nil] at hs
        rcases hs with h1 | h1 | h1 | hs
        all_goals first
        | (subst h1; rfl)
        | exact absurd hs (by simp)
      · refine ⟨rfl, ?_, rfl, rfl⟩
        intro s hs
        simp only [List.dropLast, List.mem_cons, List.not_mem_nil] at hs
        rcases hs with h1 | h1 | h1 | h1 | h1 | hs
        all_goals first
        | (subst h1; rfl)
        | exact absurd hs (by simp)

theorem claim_C3_witness :
    let cfg : SyncConfig :=
      { provider := .GIST, gistToken := some "t", syncBookmarks := true,
        syncExtensions := true, syncHistory := true, autoSyncInterval := 60 }
    let env : UploadEnv :=
      ⟨.anil, .anil, .anil, fun _ => "ts", fun _ => ⟨false, "Bad Gateway", "null"⟩, .ok "null"⟩
    let denv : DownloadEnv := ⟨fun _ => "ts", fun _ => ⟨false, "Bad Gateway", "null"⟩, fun _ => "d"⟩
    let busy : AppState := ⟨cfg, [], true, none⟩
    let idle : AppState := ⟨cfg, [], false, none⟩
    performUpload busy none env = ⟨busy, none, [], [], [], none, false⟩
    ∧ performDownload busy denv = ⟨busy, [], []⟩
    ∧ (performUpload idle none env).state.isSyncing = false
    ∧ (performDownload idle denv).state.isSyncing = false
    ∧ (performUpload idle none env).trace.head? = some { idle with isSyncing := true } := by
  intro cfg env denv busy idle
  exact ⟨claim_C3_busy_flag.1 busy none env rfl,
    claim_C3_busy_flag.2.1 busy denv rfl,
    (claim_C3_busy_flag.2.2.1 idle none env rfl).2.2.2,
    (claim_C3_busy_flag.2.2.2 idle denv rfl).2.2.2,
    (claim_C3_busy_flag.2.2.1 idle none env rfl).1⟩

/-- C6: the built snapshot always carries all three collection fields, a
collection whose flag is false is the empty sequence, and with all flags
false all three are empty; the encoded object always contains the three
collection keys. -/
theorem claim_C6_snapshot_collections :
    (∀ st ins env, st.isSyncing = false →
      (performUpload st ins env).uploadedData = some (builtSnapshot st.config env))
    ∧ (∀ cfg env, cfg.syncBookmarks = false → (builtSnapshot cfg env).bookmarks = .anil)
    ∧ (∀ cfg env, cfg.syncExtensions = false → (builtSnapshot cfg env).extensions = .anil)
    ∧ (∀ cfg env, cfg.syncHistory = false → (builtSnapshot cfg env).history = .anil)
    ∧ (∀ d : SyncData, ∃ o, syncDataToJson d = .obj o
        ∧ o.lookupLast "bookmarks" = some (.arr d.bookmarks)
        ∧ o.lookupLast "extensions" = some (.arr d.extensions)
        ∧ o.lookupLast "history" = some (.arr d.history))
    ∧ (∀ cfg env, cfg.syncBookmarks = false → cfg.syncExtensions = false →
        cfg.syncHistory = false →
        builtSnapshot cfg env = ⟨env.clock 1, "1.0.0", .anil, .anil, .anil⟩) := by
  refine ⟨?q1, ?q2, ?q3, ?q4, ?q5, ?q6⟩
  · intro st ins env h
    simp only [performUpload, h, Bool.false_eq_true, if_false]
    split
    · rfl
    · rfl
  · intro cfg env h
    simp [builtSnapshot, h]
  · intro cfg env h
    simp [builtSnapshot, h]
  · intro cfg env h
    simp [builtSnapshot, h]
  · intro d
    exact ⟨_, rfl, rfl, rfl, rfl⟩
  · intro cfg env h1 h2 h3
    simp [builtSnapshot, h1, h2, h3]

theorem claim_C6_witness :
    let cfg : SyncConfig :=
      { provider := .GIST, gistToken := some "t", syncBookmarks := false,
        syncExtensions := false, syncHistory := false, autoSyncInterval := 60 }
    let env : UploadEnv :=
      ⟨.acons (.str "b") .anil, .acons (.str "e") .anil, .acons (.str "h") .anil,
        fun _ => "ts", fun _ => ⟨true, "OK", "\x7b\"id\": \"x\"\x7d"⟩, .ok "null"⟩
    let st : AppState := ⟨cfg, [], false, none⟩
    (performUpload st none env).uploadedData = some (builtSnapshot cfg env)
    ∧ builtSnapshot cfg env = ⟨"ts", "1.0.0", .anil, .anil, .anil⟩
    ∧ (builtSnapshot cfg env).bookmarks = .anil
    ∧ (builtSnapshot cfg env).extensions = .anil
    ∧ (builtSnapshot cfg env).history = .anil := by
  intro cfg env st
  exact ⟨claim_C6_snapshot_collections.1 st none env rfl,
    claim_C6_snapshot_collections.2.2.2.2.2 cfg env rfl rfl rfl,
    claim_C6_snapshot_collections.2.1 cfg env rfl,
    claim_C6_snapshot_collections.2.2.1 cfg env rfl,
    claim_C6_snapshot_collections.2.2.2.1 cfg env rfl⟩

/-- C7: the Gist wire content of every snapshot (the pretty-printed JSON the
upload places in the fixed-name entry) parses back, as download parses it, to
exactly the encoded snapshot, whose object carries every data field; the
content is nonempty, so the download guard admits it. -/
theorem claim_C7_wire_roundtrip :
    ∀ d : SyncData,
      Json.parse (gistUploadContent d) = some (syncDataToJson d)
      ∧ jsonParseJs (.str (gistUploadContent d)) = some (syncDataToJson d)
      ∧ gistUploadContent d ≠ ""
      ∧ (∃ o, syncDataToJson d = .obj o
          ∧ o.lookupLast "lastUpdated" = some (.str d.lastUpdated)
          ∧ o.lookupLast "version" = some (.str d.version)
          ∧ o.lookupLast "bookmarks" = some (.arr d.bookmarks)
          ∧ o.lookupLast "extensions" = some (.arr d.extensions)
          ∧ o.lookupLast "history" = some (.arr d.history)) := by
  intro d
  refine ⟨parse_stringify2 _, parse_stringify2 _, ?_, _, rfl, rfl, rfl, rfl, rfl, rfl⟩
  intro hEq
  have hdata : pretty 0 (syncDataToJson d) = [] := by
    have hd : (gistUploadContent d).data = pretty 0 (syncDataToJson d) := rfl
    rw [hEq] at hd
    exact hd.symm
  simp [syncDataToJson, pretty] at hdata

/-- C8: the advisory trend-analysis call is started exactly when the upload
succeeded and the gathered history is nonempty; its outcome influences
nothing but the insights cell (state, trace, requests, persisted configs and
the call decision are identical across outcomes), and a rejection leaves the
insights cell unchanged. -/
theorem claim_C8_advisory_decoupled :
    ∀ st ins env, st.isSyncing = false →
      ((performUpload st ins env).analysisCalled = true ↔
        ((performUpload st ins env).state.logs.head?.map SyncLog.type
            = some LogType.success
          ∧ 0 < (builtSnapshot st.config env).history.len))
      ∧ (∀ ai1 ai2,
          (performUpload st ins { env with aiResp := ai1 }).state
            = (performUpload st ins { env with aiResp := ai2 }).state
          ∧ (performUpload st ins { env with aiResp := ai1 }).trace
            = (performUpload st ins { env with aiResp := ai2 }).trace
          ∧ (performUpload st ins { env with aiResp := ai1 }).requests
            = (performUpload st ins { env with aiResp := ai2 }).requests
          ∧ (performUpload st ins { env with aiResp := ai1 }).savedConfigs
            = (performUpload st ins { env with aiResp := ai2 }).savedConfigs
          ∧ (performUpload st ins { env with aiResp := ai1 }).analysisCalled
            = (performUpload st ins { env with aiResp := ai2 }).analysisCalled)
      ∧ (∀ e, analyzeBrowsingTrends (builtSnapshot st.config env).history env.aiResp
            = .error e →
          (performUpload st ins env).insights = ins) := by
  intro st ins env h
  refine ⟨?_, ?_, ?_⟩
  · simp only [performUpload, h, Bool.false_eq_true, if_false]
    split
    · simp [addLog]
    · simp [addLog]
  · intro ai1 ai2
    simp only [performUpload, h, Bool.false_eq_true, if_false]
    have hsnap : ∀ ai, builtSnapshot st.config { env with aiResp := ai }
        = builtSnapshot st.config env := fun _ => rfl
    simp only [hsnap]
    split
    · exact ⟨rfl, rfl, rfl, rfl, rfl⟩
    · exact ⟨rfl, rfl, rfl, rfl, rfl⟩
  · intro e he
    simp only [performUpload, h, Bool.false_eq_true, if_false]
    split
    · rfl
    · simp only [he]
      split
      · simp
      · rfl

theorem claim_C8_witness :
    let cfg : SyncConfig :=
      { provider := .GIST, gistToken := some "t", syncBookmarks := true,
        syncExtensions := true, syncHistory := true, autoSyncInterval := 60 }
    let hist : JsonA := .acons Json.null .anil
    let env : UploadEnv :=
      ⟨.anil, .anil, hist, fun _ => "ts",
        fun _ => ⟨true, "OK", "\x7b\"id\": \"x\"\x7d"⟩, .error ⟨.jsError, "model down"⟩⟩
    let st : AppState := ⟨cfg, [], false, none⟩
    ((performUpload st none env).analysisCalled = true ↔
      ((performUpload st none env).state.logs.head?.map SyncLog.type
          = some LogType.success
        ∧ 0 < (builtSnapshot st.config env).history.len))
    ∧ (performUpload st (some (.str "old")) env).insights = some (.str "old")
    ∧ (performUpload st none ({ env with aiResp := .error ⟨.jsError, "x"⟩ })).state
        = (performUpload st none ({ env with aiResp := .ok "\x7b\x7d" })).state := by
  intro cfg hist env st
  exact ⟨(claim_C8_advisory_decoupled st none env rfl).1,
    (claim_C8_advisory_decoupled st (some (.str "old")) env rfl).2.2
      ⟨.jsTypeError, "Cannot read properties of null"⟩ rfl,
    ((claim_C8_advisory_decoupled st none env rfl).2.1
      (.error ⟨.jsError, "x"⟩) (.ok "\x7b\x7d")).1⟩

end CloudSync
